import Mathlib

/-!
Verification of the resume-builder core of the job-application-automation
repository: a shallow embedding of `app/services/resume_builder/matcher.py`,
`app/services/resume_builder/analyzer.py`, `app/services/resume_builder/generator.py`
and `app/services/llm/ollama.py`, with theorems settling the frozen claims.

Modelling conventions:
  * Python floats/ints are modelled as exact rationals (`ℚ`) / `Int`;
    `round(x, n)` is modelled exactly as round-half-to-even at `n` decimals.
  * Python strings are Lean `String`s; `str.lower`, `in` (substring),
    `str.split()` and `set` word intersection are implemented below.
  * `datetime.now()` / `datetime.utcnow()` are modelled by an explicit
    environment value passed in (`NowInfo` / a timestamp parameter); the
    calendar day-difference used by the recency factor is a field of that
    environment, since the calendar itself is Python-library code.
  * A Python exception escaping a function is modelled by `Option`/`Except`
    (`none`/`.error` = the call raised).
-/

namespace JobAuto

/-! ## Python numeric primitives -/

/-- Round-half-to-even of a rational to an integer (semantics of Python `round`
on exact values). -/
def rhe (q : ℚ) : ℤ :=
  if q - ⌊q⌋ < 1/2 then ⌊q⌋
  else if 1/2 < q - ⌊q⌋ then ⌊q⌋ + 1
  else if ⌊q⌋ % 2 = 0 then ⌊q⌋ else ⌊q⌋ + 1

/-- Python `round(x, 2)` on exact rationals. -/
def pyRound2 (q : ℚ) : ℚ := (rhe (q * 100) : ℚ) / 100

/-- Python `round(x, 1)` on exact rationals. -/
def pyRound1 (q : ℚ) : ℚ := (rhe (q * 10) : ℚ) / 10

theorem rhe_ge_floor (q : ℚ) : ⌊q⌋ ≤ rhe q := by
  unfold rhe
  split
  · exact le_refl _
  · split
    · exact le_of_lt (lt_add_one _)
    · split
      · exact le_refl _
      · exact le_of_lt (lt_add_one _)

theorem rhe_le_ceil (q : ℚ) : rhe q ≤ ⌈q⌉ := by
  have hfc : ⌊q⌋ ≤ ⌈q⌉ := Int.floor_le_ceil q
  have hstep : (1:ℚ)/2 ≤ q - ⌊q⌋ → ⌊q⌋ + 1 ≤ ⌈q⌉ := by
    intro hr
    have hlt : (⌊q⌋ : ℚ) < q := by
      have : (0:ℚ) < q - ⌊q⌋ := lt_of_lt_of_le (by norm_num) hr
      linarith
    exact Int.add_one_le_iff.mpr (Int.lt_ceil.mpr hlt)
  unfold rhe
  split
  · exact hfc
  · rename_i h1
    split
    · rename_i h2
      exact hstep (le_of_lt h2)
    · rename_i h2
      have hr : (1:ℚ)/2 ≤ q - ⌊q⌋ := le_of_not_lt h1
      split
      · exact hfc
      · exact hstep hr

theorem rhe_le_of_le {q : ℚ} {c : ℤ} (h : q ≤ c) : rhe q ≤ c :=
  le_trans (rhe_le_ceil q) (Int.ceil_le.mpr h)

theorem le_rhe_of_le {q : ℚ} {c : ℤ} (h : (c : ℚ) ≤ q) : c ≤ rhe q :=
  le_trans (Int.le_floor.mpr h) (rhe_ge_floor q)

/-- `pyRound2` maps `[lo, hi]` into `[lo, hi]` for integer-multiples-of-1/100 bounds;
specialised forms used below. -/
theorem pyRound2_nonneg {q : ℚ} (h : 0 ≤ q) : 0 ≤ pyRound2 q := by
  unfold pyRound2
  have h1 : (0:ℤ) ≤ rhe (q * 100) := le_rhe_of_le (by push_cast; nlinarith)
  have : (0:ℚ) ≤ (rhe (q * 100) : ℚ) := by exact_mod_cast h1
  linarith

theorem pyRound2_le_one {q : ℚ} (h : q ≤ 1) : pyRound2 q ≤ 1 := by
  unfold pyRound2
  have h1 : rhe (q * 100) ≤ (100:ℤ) := rhe_le_of_le (by push_cast; nlinarith)
  have : (rhe (q * 100) : ℚ) ≤ 100 := by exact_mod_cast h1
  linarith

theorem pyRound2_le_hundred {q : ℚ} (h : q ≤ 100) : pyRound2 q ≤ 100 := by
  unfold pyRound2
  have h1 : rhe (q * 100) ≤ (10000:ℤ) := rhe_le_of_le (by push_cast; nlinarith)
  have : (rhe (q * 100) : ℚ) ≤ 10000 := by exact_mod_cast h1
  linarith

theorem pyRound2_ge_threshold {q : ℚ} (h : 3/5 ≤ q) : 3/5 ≤ pyRound2 q := by
  unfold pyRound2
  have h1 : (60:ℤ) ≤ rhe (q * 100) := le_rhe_of_le (by push_cast; nlinarith)
  have : (60:ℚ) ≤ (rhe (q * 100) : ℚ) := by exact_mod_cast h1
  linarith

/-! ## Python string primitives -/

/-- Python `str.lower()` (ASCII inputs in this code base). -/
def lowerStr (s : String) : String := ⟨s.data.map Char.toLower⟩

/-- Split a character list at every separator character, keeping empty
pieces (the behaviour of Python `str.split(sep)`). -/
def splitEvery (p : Char → Bool) (l : List Char) : List (List Char) :=
  l.foldr
    (fun c acc =>
      match acc with
      | [] => if p c then [[], []] else [[c]]
      | g :: gs => if p c then [] :: g :: gs else (c :: g) :: gs)
    [[]]

/-- Does `pre` occur as a prefix of `l`? -/
def listPre : List Char → List Char → Bool
  | [], _ => true
  | _ :: _, [] => false
  | a :: as, b :: bs => a == b && listPre as bs

/-- First index at which `needle` occurs in `hay` (Python `str.find` result ≥ 0),
`none` if absent. -/
def subIdx (needle : List Char) : List Char → Option ℕ
  | [] => if listPre needle [] then some 0 else none
  | c :: rest =>
    if listPre needle (c :: rest) then some 0
    else (subIdx needle rest).map (· + 1)

/-- Python substring containment `needle in hay`. -/
def pyIn (needle hay : String) : Bool := (subIdx needle.data hay.data).isSome

/-- Python `str.split()`: split on whitespace runs, dropping empty pieces. -/
def pySplitWS (s : String) : List String :=
  ((splitEvery Char.isWhitespace s.data).filter (fun p => !p.isEmpty)).map
    (fun cs => (⟨cs⟩ : String))

/-- Number of distinct elements of `l` that also occur in `r`
(`len(set(l) & set(r))` for word sets). -/
def commonCount (l r : List String) : ℕ :=
  ((l.dedup).filter (fun w => r.contains w)).length

/-! ## Stable descending sort (Python `sorted(..., key=..., reverse=True)`)

Python's `sorted` is a stable sort; with `reverse=True` it orders by key
descending while equal-key elements keep their input order.  A stable
descending sort is unique, so the insertion sort below is an exact model. -/

def qInsertDesc (k : α → ℚ) (x : α) : List α → List α
  | [] => [x]
  | y :: ys => if k y ≤ k x then x :: y :: ys else y :: qInsertDesc k x ys

def qSortDesc (k : α → ℚ) : List α → List α
  | [] => []
  | x :: xs => qInsertDesc k x (qSortDesc k xs)

theorem qInsertDesc_perm (k : α → ℚ) (x : α) (l : List α) :
    List.Perm (qInsertDesc k x l) (x :: l) := by
  induction l with
  | nil => simp [qInsertDesc]
  | cons y ys ih =>
    unfold qInsertDesc
    split
    · exact List.Perm.refl _
    · exact List.Perm.trans (List.Perm.cons y ih) (List.Perm.swap x y ys)

theorem qSortDesc_perm (k : α → ℚ) (l : List α) :
    List.Perm (qSortDesc k l) l := by
  induction l with
  | nil => simp [qSortDesc]
  | cons x xs ih =>
    exact List.Perm.trans (qInsertDesc_perm k x (qSortDesc k xs)) (List.Perm.cons x ih)

theorem qSortDesc_mem (k : α → ℚ) (l : List α) (a : α) :
    a ∈ qSortDesc k l ↔ a ∈ l := (qSortDesc_perm k l).mem_iff

theorem qInsertDesc_filter_eq (k : α → ℚ) (v : ℚ) (x : α) (l : List α)
    (hx : k x = v) :
    (qInsertDesc k x l).filter (fun a => decide (k a = v)) =
      x :: l.filter (fun a => decide (k a = v)) := by
  induction l with
  | nil => simp [qInsertDesc, hx]
  | cons y ys ih =>
    unfold qInsertDesc
    split
    · simp [hx]
    · rename_i hlt
      have hyv : ¬ (k y = v) := by
        intro hyv
        exact hlt (by rw [hyv, hx])
      simp only [List.filter_cons, hyv, decide_eq_true_eq, if_neg hyv]
      simp only [decide_eq_false hyv, Bool.false_eq_true, if_false]
      exact ih

theorem qInsertDesc_filter_ne (k : α → ℚ) (v : ℚ) (x : α) (l : List α)
    (hx : ¬ (k x = v)) :
    (qInsertDesc k x l).filter (fun a => decide (k a = v)) =
      l.filter (fun a => decide (k a = v)) := by
  induction l with
  | nil => simp [qInsertDesc, hx]
  | cons y ys ih =>
    unfold qInsertDesc
    split
    · simp [hx]
    · by_cases hyv : k y = v
      · simp only [List.filter_cons, decide_eq_true hyv, if_pos trivial]
        simp [hyv, ih]
      · simp [hyv, ih]

/-- Stability of the model of `sorted(..., reverse=True)`: the sublist of
elements whose key equals any fixed value is unchanged by the sort. -/
theorem qSortDesc_filter (k : α → ℚ) (v : ℚ) (l : List α) :
    (qSortDesc k l).filter (fun a => decide (k a = v)) =
      l.filter (fun a => decide (k a = v)) := by
  induction l with
  | nil => simp [qSortDesc]
  | cons x xs ih =>
    unfold qSortDesc
    by_cases hx : k x = v
    · rw [qInsertDesc_filter_eq k v x _ hx, ih]
      simp [hx]
    · rw [qInsertDesc_filter_ne k v x _ hx, ih]
      simp [hx]

/-! ## Data model (`app/core/models.py`, and the analysis dict read by the matcher) -/

/-- `ProfileSkill` (pydantic model): `name: str`, `years: Optional[int]`,
`level`/`description` are never read by the matcher and are omitted. -/
structure ProfileSkill where
  name : String
  years : Option Int
deriving DecidableEq, Repr

/-- `ProfileExperience` (pydantic model); `location` is never read by the
matcher/ranker and is omitted. -/
structure ProfileExperience where
  company : String
  title : String
  start_date : String
  end_date : Option String
  description : Option String
  achievements : List String
  skills_used : List String
deriving DecidableEq, Repr

/-- `ProfileEducation` (pydantic model).  The matcher only ever touches these
entries through dict-style `.get`, which raises (see `matchEducation`), so the
fields are not read; they are kept for the record. -/
structure ProfileEducation where
  degree : String
  field : String
  institution : String
deriving DecidableEq, Repr

/-- One element of `job.analysis["skills"]`: a dict with required key `name`
and optional keys `category` (default `"technical"`), `relevance` (default 5)
and `years_required` (default `None`). -/
structure JobSkill where
  name : String
  category : Option String
  relevance : Option Int
  years_required : Option Int
deriving DecidableEq, Repr

/-- One element of `job.analysis["education"]`: keys `level`, `field`,
`required` (all accessed directly in the matcher). -/
structure JobEdu where
  level : String
  field : String
  required : Bool
deriving DecidableEq, Repr

/-- The parts of a `UserProfile` read by `match_profile_to_job`. -/
structure UserProfileR where
  skills : List ProfileSkill
  experiences : List ProfileExperience
  education : List ProfileEducation
deriving DecidableEq, Repr

/-- Environment standing for the wall clock: `year`/`month` of
`datetime.now()`, and `daysSince y m = (datetime.now() - datetime(y, m, 1)).days`
(the calendar difference is Python-library code, so it is a parameter). -/
structure NowInfo where
  year : Int
  month : Int
  daysSince : Int → Int → Int

/-- Python truthiness of an optional int (`None` and `0` are falsy). -/
def truthyInt : Option Int → Bool
  | none => false
  | some n => n != 0

/-- `job_skill.get("relevance", 5)`. -/
def relOf (j : JobSkill) : Int := j.relevance.getD 5

/-! ## `ProfileMatcher._match_skills` (matcher.py lines 82-150) -/

/-- The name-similarity part of the inner loop of `_match_skills` (exact
match, substring ratio, or word overlap); `none` models the `continue`. -/
def baseScore (j : JobSkill) (p : ProfileSkill) : Option ℚ :=
  if lowerStr j.name = lowerStr p.name then some 1
  else if pyIn (lowerStr j.name) (lowerStr p.name)
      || pyIn (lowerStr p.name) (lowerStr j.name) then
    some (((min (lowerStr j.name).length (lowerStr p.name).length : ℕ) : ℚ)
      / ((max (lowerStr j.name).length (lowerStr p.name).length : ℕ) : ℚ))
  else if commonCount (pySplitWS (lowerStr j.name)) (pySplitWS (lowerStr p.name)) ≠ 0 then
    some ((commonCount (pySplitWS (lowerStr j.name)) (pySplitWS (lowerStr p.name)) : ℚ)
      / (((pySplitWS (lowerStr j.name)).dedup.length : ℕ) : ℚ))
  else none

/-- The experience-years blend of lines 124-132 (applied only when both the
requirement and the candidate record a truthy years value). -/
def blendScore (j : JobSkill) (p : ProfileSkill) (s : ℚ) : ℚ :=
  if truthyInt j.years_required && truthyInt p.years then
    s * (7/10)
      + (if (j.years_required.getD 0 : ℚ) ≤ (p.years.getD 0 : ℚ) then (1:ℚ)
         else (p.years.getD 0 : ℚ) / (j.years_required.getD 0 : ℚ)) * (3/10)
  else s

/-- Score of one `(job_skill, profile_skill)` pair inside the inner loop of
`_match_skills`; `none` models the `continue` (no match at all). -/
def pairScore (j : JobSkill) (p : ProfileSkill) : Option ℚ :=
  (baseScore j p).map (blendScore j p)

/-- One step of the running `(best_match_score, best_match)` state of the
inner loop (update only on strict improvement). -/
def bestStep (j : JobSkill) (b : ℚ × Option ProfileSkill) (p : ProfileSkill) :
    ℚ × Option ProfileSkill :=
  match pairScore j p with
  | none => b
  | some s => if b.1 < s then (s, some p) else b

/-- The inner loop of `_match_skills`, starting from `(0, None)`. -/
def bestFold (j : JobSkill) (ps : List ProfileSkill) : ℚ × Option ProfileSkill :=
  ps.foldl (bestStep j) (0, none)

def bestScore (j : JobSkill) (ps : List ProfileSkill) : ℚ := (bestFold j ps).1

def bestSkill (j : JobSkill) (ps : List ProfileSkill) : Option ProfileSkill :=
  (bestFold j ps).2

/-- One entry of `matched_skills` (the dict appended at lines 139-147). -/
structure MatchedSkill where
  job_skill : String
  skill_name : String
  category : String
  match_score : ℚ
  years_experience : Option Int
  years_required : Option Int
  relevance_score : ℚ
deriving DecidableEq, Repr

def mkMatched (j : JobSkill) (p : ProfileSkill) (s : ℚ) : MatchedSkill :=
  { job_skill := j.name
    skill_name := p.name
    category := j.category.getD "technical"
    match_score := pyRound2 s
    years_experience := p.years
    years_required := j.years_required
    relevance_score := pyRound2 (s * ((relOf j : ℚ) / 10)) }

/-- The `matched_skills` list before the final sort: the outer loop appends at
most one entry per required skill, kept when `best_match` is set and
`best_match_score >= 0.6`. -/
def matchedUnsorted (ps : List ProfileSkill) : List JobSkill → List MatchedSkill
  | [] => []
  | j :: rest =>
    (match bestFold j ps with
     | (s, some p) => if 3/5 ≤ s then [mkMatched j p s] else []
     | (_, none) => []) ++ matchedUnsorted ps rest

/-- `_match_skills`: build matches then
`sorted(..., key=lambda x: x["relevance_score"], reverse=True)`. -/
def matchSkills (ps : List ProfileSkill) (js : List JobSkill) : List MatchedSkill :=
  qSortDesc (fun m => m.relevance_score) (matchedUnsorted ps js)

/-- The `missing_skills` comprehension of lines 76-78: keep each job skill for
which no match has `match["skill_name"].lower() == skill["name"].lower()`.
Note: the code compares the *candidate-side* name `skill_name`, not the
requirement-side `job_skill`. -/
def missingSkills (js : List JobSkill) (ms : List MatchedSkill) : List JobSkill :=
  js.filter (fun s => !(ms.any (fun m => lowerStr m.skill_name == lowerStr s.name)))

/-! ## `ProfileMatcher._match_experience` (matcher.py lines 152-234) -/

def digitsToNat (l : List Char) : ℕ :=
  l.foldl (fun a c => a * 10 + (c.toNat - '0'.toNat)) 0

def allDigits (l : List Char) : Bool := !l.isEmpty && l.all Char.isDigit

/-- `datetime.strptime(s, "%Y-%m")`, as far as the code relies on it: a
year part and a month part separated by `-`, both digit strings, month in
1..12; `none` models the `ValueError` raised on malformed input. -/
def parseYM (s : String) : Option (Int × Int) :=
  match splitEvery (· == '-') s.data with
  | [y, m] =>
    if allDigits y && allDigits m then
      let mn := digitsToNat m
      if 1 ≤ mn && mn ≤ 12 then some ((digitsToNat y : Int), (mn : Int)) else none
    else none
  | _ => none

/-- Sequentially map a fallible function over a list, failing at the first
failure (the semantics of a Python `for` loop whose body may raise). -/
def mapO (f : α → Option β) : List α → Option (List β)
  | [] => some []
  | x :: xs => do
    let y ← f x
    let ys ← mapO f xs
    pure (y :: ys)

theorem mapO_eq_none_of_mem {f : α → Option β} {l : List α} {a : α}
    (ha : a ∈ l) (hf : f a = none) : mapO f l = none := by
  induction l with
  | nil => cases ha
  | cons x xs ih =>
    rcases List.mem_cons.mp ha with h | h
    · subst h
      simp [mapO, hf]
    · cases hx : f x with
      | none => simp [mapO, hx]
      | some y => simp [mapO, hx, ih h]

/-- Duration of one experience in fractional years
(`(end.year - start.year) + (end.month - start.month)/12`, open end = now);
`none` models the uncaught `ValueError` of `strptime`. -/
def durationYears (now : NowInfo) (e : ProfileExperience) : Option ℚ := do
  let s ← parseYM e.start_date
  let en ← match e.end_date with
    | some es => parseYM es
    | none => some (now.year, now.month)
  pure ((en.1 - s.1 : Int) + ((en.2 - s.2 : Int) : ℚ) / 12)

/-- The accumulated per-experience relevance sum of lines 190-198: one
weighted hit per job skill whose name occurs in title, description or
skills-used. -/
def relevanceRaw (js : List JobSkill) (e : ProfileExperience) : ℚ :=
  (js.map (fun j =>
    if pyIn (lowerStr j.name) (lowerStr e.title)
        || (match e.description with
            | some d => pyIn (lowerStr j.name) (lowerStr d)
            | none => false)
        || e.skills_used.any (fun su => pyIn (lowerStr j.name) (lowerStr su)) then
      (relOf j : ℚ) / 10
    else 0)).sum

/-- Per-experience relevance factor (lines 189-204): the accumulated sum
normalised by the number of job skills and capped at 1; 0.5 when the job
lists no skills. -/
def relevanceFactorExp (js : List JobSkill) (e : ProfileExperience) : ℚ :=
  if js.isEmpty then 1/2 else min (relevanceRaw js e / (js.length : ℚ)) 1

/-- The dict returned by `_match_experience`.  `relevant_years` is `none` on
the empty-experiences early return, where the key is absent. -/
structure ExpMatch where
  score : ℚ
  total_years : ℚ
  relevant_years : Option ℚ
  required_years : Option Int
  has_sufficient : Bool
deriving DecidableEq, Repr

/-- The no-requirement bucket scale of lines 216-226. -/
def expBuckets (r : ℚ) : ℚ :=
  if 7 ≤ r then 1
  else if 5 ≤ r then 9/10
  else if 3 ≤ r then 4/5
  else if 1 ≤ r then 3/5
  else 3/10

def matchExperience (now : NowInfo) (exps : List ProfileExperience)
    (je : Option Int) (js : List JobSkill) : Option ExpMatch :=
  if exps.isEmpty then
    some { score := 0, total_years := 0, relevant_years := none,
           required_years := je, has_sufficient := false }
  else do
    let pairs ← mapO (fun e =>
      (durationYears now e).map (fun d => (d, d * relevanceFactorExp js e))) exps
    let total : ℚ := (pairs.map (·.1)).sum
    let relevant : ℚ := (pairs.map (·.2)).sum
    let score : ℚ :=
      if truthyInt je then
        (if (je.getD 0 : ℚ) ≤ relevant then 1 else relevant / (je.getD 0 : ℚ))
      else expBuckets relevant
    let threshold : ℚ := if truthyInt je then (je.getD 0 : ℚ) else 3
    pure { score := pyRound2 score, total_years := pyRound1 total,
           relevant_years := some (pyRound1 relevant), required_years := je,
           has_sufficient := decide (threshold ≤ relevant) }

/-! ## `ProfileMatcher._match_education` (matcher.py lines 236-347) -/

/-- The dict returned by `_match_education`.  The `matches` list is typed but
always empty on every reachable path (see `matchEducation`). -/
structure EduMatch where
  score : ℚ
  has_required : Bool
  matched : List (String × String × ℚ × Bool)
deriving DecidableEq, Repr

/-- `_match_education` as actually callable: the two early returns are
reachable; when both the job education list and the profile education list are
non-empty, the first loop iteration evaluates `profile_edu.get("degree", "")`
on a pydantic `ProfileEducation` object (the caller passes
`profile.education`, a `List[ProfileEducation]`), which has no `get` method —
an `AttributeError` escapes (`none`).  The degree-ladder logic below that
line is unreachable with the types the caller passes. -/
def matchEducation (pe : List ProfileEducation) (je : List JobEdu) : Option EduMatch :=
  if je.isEmpty then
    some { score := 4/5, has_required := true, matched := [] }
  else if pe.isEmpty then
    some { score := 0, has_required := false, matched := [] }
  else none

/-! ## `ProfileMatcher._rank_experiences` (matcher.py lines 349-443) -/

/-- One entry of the ranked-experiences list.  The code stores the duration
as the display string `f"{round(d, 1)} years"`; we keep the rounded number. -/
structure RankedExp where
  title : String
  company : String
  duration : ℚ
  relevance_score : ℚ
  matching_skills : List String
  is_current : Bool
deriving DecidableEq, Repr

/-- `skill_relevance[name]`: the dict comprehension keyed by lowercased name;
later duplicates overwrite earlier ones, hence the reversed lookup. -/
def relLookup (js : List JobSkill) (n : String) : Int :=
  ((js.reverse.find? (fun j => lowerStr j.name == n)).map relOf).getD 5

/-- The three accumulation loops over title / description / skills-used
(lines 376-397), returning `(relevance_score, matching_skills)`. -/
def skillHits (js : List JobSkill) (e : ProfileExperience) : ℚ × List String :=
  let names := js.map (fun j => lowerStr j.name)
  let tl := lowerStr e.title
  let st1 := names.foldl
    (fun (a : ℚ × List String) sk =>
      if pyIn sk tl then (a.1 + (1/2) * ((relLookup js sk : ℚ) / 10), a.2 ++ [sk]) else a)
    (1, [])
  let st2 := match e.description with
    | some d =>
      let dl := lowerStr d
      names.foldl
        (fun (a : ℚ × List String) sk =>
          if pyIn sk dl && !(a.2.contains sk) then
            (a.1 + (3/10) * ((relLookup js sk : ℚ) / 10), a.2 ++ [sk])
          else a)
        st1
    | none => st1
  e.skills_used.foldl
    (fun a us =>
      let ul := lowerStr us
      names.foldl
        (fun (a : ℚ × List String) sk =>
          if pyIn sk ul && !(a.2.contains sk) then
            (a.1 + (1/5) * ((relLookup js sk : ℚ) / 10), a.2 ++ [sk])
          else a)
        a)
    st2

/-- Score one experience (loop body of `_rank_experiences`); `none` models the
uncaught `strptime` `ValueError`. -/
def scoreExp (now : NowInfo) (js : List JobSkill) (jobLevel : Option String)
    (e : ProfileExperience) : Option RankedExp := do
  let hits := skillHits js e
  let s ← parseYM e.start_date
  let (en, is_current) ← match e.end_date with
    | some es => (parseYM es).map (fun d => (d, false))
    | none => some ((now.year, now.month), true)
  let duration : ℚ := (en.1 - s.1 : Int) + ((en.2 - s.2 : Int) : ℚ) / 12
  let years_ago : ℚ := if is_current then 0 else (now.daysSince en.1 en.2 : ℚ) / 365
  let recency : ℚ := max (1 - years_ago / 10) (1/2)
  let current_boost : ℚ := if is_current then 6/5 else 1
  let tl := lowerStr e.title
  let level_boost : ℚ :=
    if jobLevel == some "executive"
        && (pyIn "director" tl || pyIn "head" tl || pyIn "chief" tl) then 3/2
    else if jobLevel == some "senior" && (pyIn "senior" tl || pyIn "lead" tl) then 13/10
    else if jobLevel == some "mid"
        && !(["junior", "entry", "intern"].any (fun w => pyIn w tl)) then 6/5
    else if jobLevel == some "entry"
        && (["junior", "entry", "intern"].any (fun w => pyIn w tl)) then 13/10
    else 1
  pure { title := e.title, company := e.company, duration := pyRound1 duration,
         relevance_score := pyRound2 (hits.1 * recency * current_boost * level_boost),
         matching_skills := hits.2, is_current := is_current }

/-- The loop of `_rank_experiences` before the final sort. -/
def scoredExperiences (now : NowInfo) (exps : List ProfileExperience)
    (js : List JobSkill) (jobLevel : Option String) : Option (List RankedExp) :=
  mapO (scoreExp now js jobLevel) exps

/-- `_rank_experiences`: empty input short-circuits; otherwise score each
experience and sort by `relevance_score` descending (stable). -/
def rankExperiences (now : NowInfo) (exps : List ProfileExperience)
    (js : List JobSkill) (jobLevel : Option String) : Option (List RankedExp) :=
  if exps.isEmpty then some []
  else (scoredExperiences now exps js jobLevel).map
    (qSortDesc (fun r => r.relevance_score))

/-! ## `ProfileMatcher.match_profile_to_job` (matcher.py lines 23-80) -/

def fitCategory (overall : ℚ) : String :=
  if 85 ≤ overall then "excellent"
  else if 70 ≤ overall then "good"
  else if 50 ≤ overall then "fair"
  else "poor"

/-- `skill_score` of line 53 (0-100 scale). -/
def skillScoreV (ps : List ProfileSkill) (js : List JobSkill) : ℚ :=
  ((matchSkills ps js).map (·.relevance_score)).sum / (max js.length 1 : ℚ) * 100

/-- `experience_score` of line 54 (0-100 scale; `.get("score", 0)`). -/
def experienceScoreV (now : NowInfo) (exps : List ProfileExperience)
    (je : Option Int) (js : List JobSkill) : ℚ :=
  ((matchExperience now exps je js).elim 0 (·.score)) * 100

/-- `education_score` of line 55 (0-100 scale). -/
def educationScoreV (pe : List ProfileEducation) (je : List JobEdu) : ℚ :=
  ((matchEducation pe je).elim 0 (·.score)) * 100

/-- The dict returned by `match_profile_to_job` (the `matched_at` timestamp is
left out; it is write-only metadata). -/
structure MatchResultR where
  overall_match : ℚ
  fit_category : String
  skill_match_score : ℚ
  matched_skills : List MatchedSkill
  experience_match : ExpMatch
  education_match : EduMatch
  relevant_experiences : List RankedExp
  missing_skills : List JobSkill
deriving DecidableEq, Repr

/-- `match_profile_to_job`, taking the analysis dict's parts as read on lines
38-41 (`job_level` is the effective value of `.get("job_level", "mid")`);
`none` models an exception escaping (malformed experience date, or the
education `AttributeError`). -/
def matchProfileToJob (now : NowInfo) (p : UserProfileR) (js : List JobSkill)
    (je : Option Int) (eduReqs : List JobEdu) (jobLevel : Option String) :
    Option MatchResultR := do
  let sk := matchSkills p.skills js
  let em ← matchExperience now p.experiences je js
  let ed ← matchEducation p.education eduReqs
  let skill_score : ℚ := (sk.map (·.relevance_score)).sum / (max js.length 1 : ℚ) * 100
  let experience_score : ℚ := em.score * 100
  let education_score : ℚ := ed.score * 100
  let overall : ℚ := skill_score * (1/2) + experience_score * (3/10) + education_score * (1/5)
  let re ← rankExperiences now p.experiences js jobLevel
  pure { overall_match := pyRound2 overall
         fit_category := fitCategory overall
         skill_match_score := pyRound2 skill_score
         matched_skills := sk
         experience_match := em
         education_match := ed
         relevant_experiences := re
         missing_skills := missingSkills js sk }

/-! ## Concrete inputs used by counterexamples and witnesses -/

/-- A fixed clock: June 2024; every past month-start is taken as 365 days ago
(any value is a legitimate calendar environment for the theorems below). -/
def now0 : NowInfo := ⟨2024, 6, fun _ _ => 365⟩

def jsPy : JobSkill := ⟨"python", none, some 8, none⟩

def psPys : ProfileSkill := ⟨"pythons", none⟩

def expGood : ProfileExperience :=
  { company := "Acme", title := "Engineer", start_date := "2020-01",
    end_date := some "2022-01", description := none,
    achievements := [], skills_used := [] }

def expBadDate : ProfileExperience :=
  { company := "Beta", title := "Manager", start_date := "not-a-date",
    end_date := none, description := none,
    achievements := [], skills_used := [] }

def pEmpty : UserProfileR := ⟨[], [], []⟩

/-- The result of `match_profile_to_job` on the empty profile with an
all-empty analysis (education defaults to 0.8, hence overall 16). -/
def rEmpty : MatchResultR :=
  { overall_match := 16, fit_category := "poor", skill_match_score := 0,
    matched_skills := [],
    experience_match := { score := 0, total_years := 0, relevant_years := none,
                          required_years := none, has_sufficient := false },
    education_match := { score := 4/5, has_required := true, matched := [] },
    relevant_experiences := [], missing_skills := [] }

/-! ## Claim C1 -/

/-- C1: for every result produced by `match_profile_to_job`, the reported
overall score is exactly the 50/30/20-weighted combination of the skill,
experience and education component scores (each on the 0-100 scale, the
values of lines 53-55), with the final `round(..., 2)` applied for display;
the reported sub-scores agree with those same components. -/
theorem C1_overall_is_weighted_sum (now : NowInfo) (p : UserProfileR)
    (js : List JobSkill) (je : Option Int) (eduReqs : List JobEdu)
    (lvl : Option String) (r : MatchResultR)
    (h : matchProfileToJob now p js je eduReqs lvl = some r) :
    r.overall_match = pyRound2 (skillScoreV p.skills js * (1/2)
        + experienceScoreV now p.experiences je js * (3/10)
        + educationScoreV p.education eduReqs * (1/5))
    ∧ r.skill_match_score = pyRound2 (skillScoreV p.skills js)
    ∧ r.experience_match.score * 100 = experienceScoreV now p.experiences je js
    ∧ r.education_match.score * 100 = educationScoreV p.education eduReqs := by
  unfold matchProfileToJob at h
  cases hem : matchExperience now p.experiences je js with
  | none => rw [hem] at h; simp at h
  | some em =>
    cases hed : matchEducation p.education eduReqs with
    | none => rw [hem, hed] at h; simp at h
    | some ed =>
      cases hre : rankExperiences now p.experiences js lvl with
      | none => rw [hem, hed, hre] at h; simp at h
      | some re =>
        rw [hem, hed, hre] at h
        simp only [Option.pure_def, Option.bind_eq_bind, Option.some_bind,
          Option.some.injEq] at h
        subst h
        refine ⟨?_, ?_, ?_, ?_⟩ <;>
          simp [skillScoreV, experienceScoreV, educationScoreV, hem, hed]

unseal Rat.mul Rat.inv Rat.add Rat.sub in
/-- Witness for C1 at a concrete input. -/
theorem C1_witness :
    rEmpty.overall_match = pyRound2 (skillScoreV pEmpty.skills [] * (1/2)
        + experienceScoreV now0 pEmpty.experiences none [] * (3/10)
        + educationScoreV pEmpty.education [] * (1/5))
    ∧ rEmpty.skill_match_score = pyRound2 (skillScoreV pEmpty.skills [])
    ∧ rEmpty.experience_match.score * 100 = experienceScoreV now0 pEmpty.experiences none []
    ∧ rEmpty.education_match.score * 100 = educationScoreV pEmpty.education [] :=
  C1_overall_is_weighted_sum now0 pEmpty [] none [] none rEmpty (by decide)

/-! ## Claim C2 -/

unseal Rat.mul Rat.inv Rat.add Rat.sub in
/-- C2 (refuting evaluation): with required skill `python` (relevance 8) and
candidate skill `pythons`, the requirement is accepted (substring score
6/7 ≈ 0.86 ≥ 0.6) and appears in `matched_skills` with `job_skill = "python"`,
yet `"python"` also appears in `missing_skills`, because the comprehension of
lines 76-78 compares the candidate-side `skill_name` (`"pythons"`) instead of
the requirement-side `job_skill` against the required name.  The same skill
is therefore reported both matched and missing, contradicting the claimed
exact partition. -/
theorem C2_skill_in_both_lists :
    (matchSkills [psPys] [jsPy]).map (fun m => m.job_skill) = ["python"]
    ∧ (missingSkills [jsPy] (matchSkills [psPys] [jsPy])).map (fun s => s.name)
        = ["python"] := by decide

/-! ## Claim C3 -/

unseal Rat.mul Rat.inv Rat.add Rat.sub in
/-- C3 (refuting evaluation): with one well-formed experience and one whose
start date does not parse, `_match_experience` raises (`none`) — the whole
match fails instead of skipping the malformed entry and scoring the rest. -/
theorem C3_counterexample :
    matchExperience now0 [expGood, expBadDate] (some 5) [] = none
    ∧ matchProfileToJob now0 ⟨[], [expGood, expBadDate], []⟩ [] (some 5) [] none
        = none := by decide

/-- C3 (amended): a malformed date on *any* experience entry makes the whole
experience-matching computation fail with an uncaught exception (there is no
per-entry `try`/`except`); no partial result over the remaining entries is
returned. -/
theorem C3_malformed_date_fails_whole_match (now : NowInfo)
    (exps : List ProfileExperience) (je : Option Int) (js : List JobSkill)
    (e : ProfileExperience) (he : e ∈ exps)
    (hbad : durationYears now e = none) :
    matchExperience now exps je js = none := by
  cases exps with
  | nil => cases he
  | cons x xs =>
    unfold matchExperience
    have hmap : mapO (fun e =>
        (durationYears now e).map (fun d => (d, d * relevanceFactorExp js e)))
        (x :: xs) = none :=
      mapO_eq_none_of_mem he (by rw [hbad]; rfl)
    simp [List.isEmpty, hmap]

unseal Rat.mul Rat.inv Rat.add Rat.sub in
/-- Witness for C3 (amended) at a concrete input. -/
theorem C3_witness : matchExperience now0 [expBadDate] (some 2) [] = none :=
  C3_malformed_date_fails_whole_match now0 [expBadDate] (some 2) [] expBadDate
    (by simp) (by decide)

/-! ## Claim C8: helper lemmas on the best-match fold -/

theorem foldl_bestStep_fst_nonneg (j : JobSkill) :
    ∀ (l : List ProfileSkill) (b : ℚ × Option ProfileSkill),
      0 ≤ b.1 → 0 ≤ (l.foldl (bestStep j) b).1 := by
  intro l
  induction l with
  | nil => intro b hb; simpa using hb
  | cons p rest ih =>
    intro b hb
    simp only [List.foldl_cons]
    apply ih
    unfold bestStep
    cases pairScore j p with
    | none => exact hb
    | some s =>
      simp only
      split
      · rename_i hlt
        exact le_of_lt (lt_of_le_of_lt hb hlt)
      · exact hb

theorem bestScore_nonneg (j : JobSkill) (ps : List ProfileSkill) :
    0 ≤ bestScore j ps :=
  foldl_bestStep_fst_nonneg j ps (0, none) (le_refl 0)

theorem foldl_bestStep_none_fix (j : JobSkill) :
    ∀ (l : List ProfileSkill) (b : ℚ × Option ProfileSkill),
      (l.foldl (bestStep j) b).2 = none → l.foldl (bestStep j) b = b := by
  intro l
  induction l with
  | nil => intro b _; rfl
  | cons p rest ih =>
    intro b h
    simp only [List.foldl_cons] at h ⊢
    have hfix := ih (bestStep j b p) h
    rw [hfix] at h ⊢
    unfold bestStep at h ⊢
    cases hps : pairScore j p with
    | none => simp [hps]
    | some s =>
      simp only [hps] at h ⊢
      split at h
      · simp at h
      · rename_i hnlt
        rw [if_neg hnlt]

theorem bestFold_none_score_zero (j : JobSkill) (ps : List ProfileSkill)
    (h : bestSkill j ps = none) : bestScore j ps = 0 := by
  have := foldl_bestStep_none_fix j ps (0, none) h
  unfold bestScore bestFold
  rw [this]

/-- The entry appended for an accepted requirement (the `best_match` branch is
total because an accepted requirement always has a best match; the `none`
branch is unreachable under acceptance). -/
def acceptedEntry (ps : List ProfileSkill) (j : JobSkill) : MatchedSkill :=
  match bestSkill j ps with
  | some p => mkMatched j p (bestScore j ps)
  | none => mkMatched j ⟨"", none⟩ (bestScore j ps)

/-- The outer loop keeps exactly the requirements whose best blended score
reaches the 0.6 threshold (the `best_match` non-null conjunct of line 138 is
implied by the threshold, since the score starts at 0 and only increases on an
update that also sets `best_match`). -/
theorem matchedUnsorted_eq (ps : List ProfileSkill) (js : List JobSkill) :
    matchedUnsorted ps js =
      (js.filter (fun j => decide (3/5 ≤ bestScore j ps))).map (acceptedEntry ps) := by
  induction js with
  | nil => rfl
  | cons j rest ih =>
    unfold matchedUnsorted
    rw [List.filter_cons]
    cases hb : bestFold j ps with
    | mk s o =>
      have hbs : bestScore j ps = s := by unfold bestScore; rw [hb]
      cases o with
      | some p =>
        by_cases hs : 3/5 ≤ s
        · have : decide (3/5 ≤ bestScore j ps) = true := by simp [hbs, hs]
          rw [this]
          simp only [if_pos trivial, List.map_cons]
          rw [ih]
          unfold acceptedEntry bestSkill
          rw [hb]
          simp [hbs, hs]
        · have : decide (3/5 ≤ bestScore j ps) = false := by simp [hbs, hs]
          rw [this]
          simp only [Bool.false_eq_true, if_false]
          rw [ih]
          simp [hs]
      | none =>
        have hz : s = 0 := by
          have h0 : bestSkill j ps = none := by unfold bestSkill; rw [hb]
          have := bestFold_none_score_zero j ps h0
          rw [hbs] at this
          exact this
        have : decide (3/5 ≤ bestScore j ps) = false := by
          rw [hbs, hz]
          norm_num
        rw [this]
        simp only [Bool.false_eq_true, if_false]
        rw [ih]
        simp

/-- C8: `_match_skills` output characterisation — a requirement contributes a
`matched_skills` entry exactly when its best blended candidate score is at
least 0.6 (the sorted output is the sort of the map of `acceptedEntry` over
exactly the requirements passing the threshold), and consequently every entry
of `matched_skills` carries `match_score` at least 0.6. -/
theorem C8_accept_iff_threshold (ps : List ProfileSkill) (js : List JobSkill) :
    matchSkills ps js = qSortDesc (fun m => m.relevance_score)
        ((js.filter (fun j => decide (3/5 ≤ bestScore j ps))).map (acceptedEntry ps))
    ∧ ∀ m ∈ matchSkills ps js, 3/5 ≤ m.match_score := by
  constructor
  · unfold matchSkills
    rw [matchedUnsorted_eq]
  · intro m hm
    rw [matchSkills, (qSortDesc_perm _ _).mem_iff, matchedUnsorted_eq] at hm
    rcases List.mem_map.mp hm with ⟨j, hj, hmj⟩
    rcases List.mem_filter.mp hj with ⟨_, hdec⟩
    have hth : 3/5 ≤ bestScore j ps := of_decide_eq_true hdec
    have hms : m.match_score = pyRound2 (bestScore j ps) := by
      rw [← hmj]
      unfold acceptedEntry
      cases bestSkill j ps <;> rfl
    rw [hms]
    exact pyRound2_ge_threshold hth

unseal Rat.mul Rat.inv Rat.add Rat.sub in
/-- Witness for C8 at a concrete input: the accepted `python` requirement
matched by candidate skill `pythons` has `match_score` 0.86 ≥ 0.6. -/
theorem C8_witness : 3/5 ≤ (mkMatched jsPy psPys (6/7)).match_score :=
  (C8_accept_iff_threshold [psPys] [jsPy]).2 (mkMatched jsPy psPys (6/7)) (by decide)

/-! ## Claim C9 -/

/-- C9: `_rank_experiences` sorts the scored experiences by
`relevance_score` descending with Python's stable `sorted`; for every score
value, the sublist of ranked entries carrying exactly that score is the
sublist of the unsorted (input-ordered) scored entries with that score — i.e.
equal-scored experiences keep their original relative order. -/
theorem C9_rank_stable (now : NowInfo) (exps : List ProfileExperience)
    (js : List JobSkill) (lvl : Option String) (u : List RankedExp) (v : ℚ)
    (h : scoredExperiences now exps js lvl = some u) :
    rankExperiences now exps js lvl = some (qSortDesc (fun r => r.relevance_score) u)
    ∧ (qSortDesc (fun r => r.relevance_score) u).filter
        (fun r => decide (r.relevance_score = v))
      = u.filter (fun r => decide (r.relevance_score = v)) := by
  refine ⟨?_, qSortDesc_filter _ v u⟩
  unfold rankExperiences
  cases exps with
  | nil =>
    have hu : u = [] := by
      simpa [scoredExperiences, mapO] using h.symm
    subst hu
    simp [List.isEmpty, qSortDesc]
  | cons e rest =>
    simp only [List.isEmpty, Bool.false_eq_true, if_false]
    rw [h]
    rfl

def eS1 : ProfileExperience :=
  { company := "CoA", title := "Analyst", start_date := "2024-01",
    end_date := none, description := none, achievements := [], skills_used := [] }

def eS2 : ProfileExperience :=
  { company := "CoB", title := "Consultant", start_date := "2024-01",
    end_date := none, description := none, achievements := [], skills_used := [] }

/-- The scored list for `[eS1, eS2]` against an empty skill list: both current
roles score 1 · 1 · 1.2 · 1 = 1.2, duration 5/12 rounds to 0.4. -/
def uTie : List RankedExp :=
  [ { title := "Analyst", company := "CoA", duration := 2/5,
      relevance_score := 6/5, matching_skills := [], is_current := true },
    { title := "Consultant", company := "CoB", duration := 2/5,
      relevance_score := 6/5, matching_skills := [], is_current := true } ]

unseal Rat.mul Rat.inv Rat.add Rat.sub in
/-- Witness for C9 at a concrete input with two equal-scored experiences. -/
theorem C9_witness :
    rankExperiences now0 [eS1, eS2] [] none
        = some (qSortDesc (fun r => r.relevance_score) uTie)
    ∧ (qSortDesc (fun r => r.relevance_score) uTie).filter
        (fun r => decide (r.relevance_score = 6/5))
      = uTie.filter (fun r => decide (r.relevance_score = 6/5)) :=
  C9_rank_stable now0 [eS1, eS2] [] none uTie (6/5) (by decide)

/-! ## Claim C7: score bounds -/

theorem truthy_some {o : Option Int} (h : truthyInt o = true) :
    ∃ y, o = some y ∧ y ≠ 0 := by
  cases o with
  | none => simp [truthyInt] at h
  | some y =>
    refine ⟨y, rfl, ?_⟩
    simpa [truthyInt] using h

theorem ratio_min_max_le_one (a b : ℕ) :
    ((min a b : ℕ) : ℚ) / ((max a b : ℕ) : ℚ) ≤ 1 := by
  rcases Nat.eq_zero_or_pos (max a b) with h | h
  · rw [h]
    norm_num
  · apply div_le_one_of_le₀
    · exact_mod_cast min_le_max
    · positivity

theorem qsum_le_length (l : List ℚ) (h : ∀ x ∈ l, x ≤ 1) :
    l.sum ≤ (l.length : ℚ) := by
  induction l with
  | nil => simp
  | cons x xs ih =>
    have hx := h x (List.mem_cons_self x xs)
    have hxs := ih (fun y hy => h y (List.mem_cons_of_mem x hy))
    simp only [List.sum_cons, List.length_cons]
    push_cast
    linarith

/-- Every name-similarity base score is at most 1. -/
theorem baseScore_le_one (j : JobSkill) (p : ProfileSkill) :
    ∀ b, baseScore j p = some b → b ≤ 1 := by
  intro b hb
  unfold baseScore at hb
  by_cases h1 : lowerStr j.name = lowerStr p.name
  · rw [if_pos h1] at hb
    injection hb with h
    rw [← h]
  · rw [if_neg h1] at hb
    by_cases h2 : (pyIn (lowerStr j.name) (lowerStr p.name)
        || pyIn (lowerStr p.name) (lowerStr j.name)) = true
    · rw [if_pos h2] at hb
      injection hb with h
      rw [← h]
      exact ratio_min_max_le_one _ _
    · rw [if_neg h2] at hb
      by_cases h3 : commonCount (pySplitWS (lowerStr j.name))
          (pySplitWS (lowerStr p.name)) ≠ 0
      · rw [if_pos h3] at hb
        injection hb with h
        rw [← h]
        have hle : commonCount (pySplitWS (lowerStr j.name)) (pySplitWS (lowerStr p.name))
            ≤ (pySplitWS (lowerStr j.name)).dedup.length :=
          List.length_filter_le _ _
        have hpos : 0 < (pySplitWS (lowerStr j.name)).dedup.length :=
          Nat.lt_of_lt_of_le (Nat.pos_of_ne_zero h3) hle
        apply div_le_one_of_le₀
        · exact_mod_cast hle
        · positivity
      · rw [if_neg h3] at hb
        cases hb

/-- The blended score stays at most 1 when the requirement years, if present,
are nonnegative. -/
theorem blendScore_le_one (j : JobSkill) (p : ProfileSkill)
    (hy : ∀ y, j.years_required = some y → 0 ≤ y) {b : ℚ} (hb : b ≤ 1) :
    blendScore j p b ≤ 1 := by
  unfold blendScore
  by_cases htr : (truthyInt j.years_required && truthyInt p.years) = true
  · rw [if_pos htr]
    simp only [Bool.and_eq_true] at htr
    rcases truthy_some htr.1 with ⟨y, hyy, hy0⟩
    have hypos : (0:ℚ) < (j.years_required.getD 0 : ℚ) := by
      rw [hyy]
      have hge := hy y hyy
      have hpos : 0 < y := lt_of_le_of_ne hge (Ne.symm hy0)
      exact_mod_cast hpos
    have hef : (if (j.years_required.getD 0 : ℚ) ≤ (p.years.getD 0 : ℚ) then (1:ℚ)
        else (p.years.getD 0 : ℚ) / (j.years_required.getD 0 : ℚ)) ≤ 1 := by
      split
      · exact le_refl 1
      · rename_i hnle
        exact le_of_lt ((div_lt_one hypos).mpr (lt_of_not_le hnle))
    set ef := (if (j.years_required.getD 0 : ℚ) ≤ (p.years.getD 0 : ℚ) then (1:ℚ)
        else (p.years.getD 0 : ℚ) / (j.years_required.getD 0 : ℚ))
    nlinarith
  · rw [if_neg htr]
    exact hb

/-- Every pair score produced inside `_match_skills` is at most 1, provided
the requirement's `years_required`, when present, is nonnegative (a negative
requirement would let the experience-blend factor exceed 1). -/
theorem pairScore_le_one (j : JobSkill) (p : ProfileSkill)
    (hy : ∀ y, j.years_required = some y → 0 ≤ y) :
    ∀ s, pairScore j p = some s → s ≤ 1 := by
  intro s hs
  rcases Option.map_eq_some'.mp hs with ⟨b, hb, hf⟩
  rw [← hf]
  exact blendScore_le_one j p hy (baseScore_le_one j p b hb)

theorem foldl_bestStep_fst_le_one (j : JobSkill)
    (hy : ∀ y, j.years_required = some y → 0 ≤ y) :
    ∀ (l : List ProfileSkill) (b : ℚ × Option ProfileSkill),
      b.1 ≤ 1 → (l.foldl (bestStep j) b).1 ≤ 1 := by
  intro l
  induction l with
  | nil => intro b hb; simpa using hb
  | cons p rest ih =>
    intro b hb
    simp only [List.foldl_cons]
    apply ih
    unfold bestStep
    cases hps : pairScore j p with
    | none => exact hb
    | some s =>
      simp only
      split
      · exact pairScore_le_one j p hy s hps
      · exact hb

theorem bestScore_le_one (j : JobSkill) (ps : List ProfileSkill)
    (hy : ∀ y, j.years_required = some y → 0 ≤ y) :
    bestScore j ps ≤ 1 :=
  foldl_bestStep_fst_le_one j hy ps (0, none) (by norm_num)

theorem relOf_bounds (j : JobSkill)
    (hrel : ∀ r, j.relevance = some r → 1 ≤ r ∧ r ≤ 10) :
    1 ≤ relOf j ∧ relOf j ≤ 10 := by
  unfold relOf
  cases hr : j.relevance with
  | none => norm_num
  | some r => simpa using hrel r hr

/-- The relevance-weighted score recorded for an accepted requirement lies in
`[0, 1]` when the requirement's relevance is in `[1, 10]` and its
`years_required` is nonnegative. -/
theorem acceptedEntry_relscore_bounds (ps : List ProfileSkill) (j : JobSkill)
    (hrel : ∀ r, j.relevance = some r → 1 ≤ r ∧ r ≤ 10)
    (hy : ∀ y, j.years_required = some y → 0 ≤ y) :
    0 ≤ (acceptedEntry ps j).relevance_score
    ∧ (acceptedEntry ps j).relevance_score ≤ 1 := by
  have hrs : (acceptedEntry ps j).relevance_score
      = pyRound2 (bestScore j ps * ((relOf j : ℚ) / 10)) := by
    unfold acceptedEntry
    cases bestSkill j ps <;> rfl
  rw [hrs]
  have h0 : 0 ≤ bestScore j ps := bestScore_nonneg j ps
  have h1 : bestScore j ps ≤ 1 := bestScore_le_one j ps hy
  obtain ⟨hrl, hru⟩ := relOf_bounds j hrel
  have hrl2 : (1:ℚ) ≤ (relOf j : ℚ) := by exact_mod_cast hrl
  have hru2 : (relOf j : ℚ) ≤ 10 := by exact_mod_cast hru
  constructor
  · apply pyRound2_nonneg
    apply mul_nonneg h0
    linarith
  · apply pyRound2_le_one
    nlinarith

/-- `skill_score` of line 53 lies in `[0, 100]` when every required skill's
relevance is in `[1, 10]` and no `years_required` is negative. -/
theorem skillScoreV_bounds (ps : List ProfileSkill) (js : List JobSkill)
    (hrel : ∀ j ∈ js, ∀ r, j.relevance = some r → 1 ≤ r ∧ r ≤ 10)
    (hy : ∀ j ∈ js, ∀ y, j.years_required = some y → 0 ≤ y) :
    0 ≤ skillScoreV ps js ∧ skillScoreV ps js ≤ 100 := by
  unfold skillScoreV
  have hperm : ((matchSkills ps js).map (fun m => m.relevance_score)).sum
      = (((js.filter (fun j => decide (3/5 ≤ bestScore j ps))).map
          (acceptedEntry ps)).map (fun m => m.relevance_score)).sum := by
    have h1 : List.Perm (matchSkills ps js) (matchedUnsorted ps js) :=
      qSortDesc_perm _ _
    rw [(h1.map (fun m => m.relevance_score)).sum_eq, matchedUnsorted_eq]
  have hbound : ∀ x ∈ (((js.filter (fun j => decide (3/5 ≤ bestScore j ps))).map
      (acceptedEntry ps)).map (fun m => m.relevance_score)), 0 ≤ x ∧ x ≤ 1 := by
    intro x hx
    rcases List.mem_map.mp hx with ⟨m, hm, rfl⟩
    rcases List.mem_map.mp hm with ⟨j, hj, rfl⟩
    rcases List.mem_filter.mp hj with ⟨hjs, _⟩
    exact acceptedEntry_relscore_bounds ps j (hrel j hjs) (hy j hjs)
  have hsum0 : 0 ≤ ((matchSkills ps js).map (fun m => m.relevance_score)).sum := by
    rw [hperm]
    exact List.sum_nonneg (fun x hx => (hbound x hx).1)
  have hsumlen : ((matchSkills ps js).map (fun m => m.relevance_score)).sum
      ≤ (js.length : ℚ) := by
    rw [hperm]
    calc (((js.filter (fun j => decide (3/5 ≤ bestScore j ps))).map
            (acceptedEntry ps)).map (fun m => m.relevance_score)).sum
        ≤ ((((js.filter (fun j => decide (3/5 ≤ bestScore j ps))).map
            (acceptedEntry ps)).map (fun m => m.relevance_score)).length : ℚ) :=
          qsum_le_length _ (fun x hx => (hbound x hx).2)
      _ ≤ (js.length : ℚ) := by
          simp only [List.length_map]
          exact_mod_cast List.length_filter_le _ _
  have hmax1 : (1:ℚ) ≤ (max js.length 1 : ℚ) := le_max_right (js.length : ℚ) 1
  have hjsmax : (js.length : ℚ) ≤ (max js.length 1 : ℚ) := le_max_left (js.length : ℚ) 1
  constructor
  · have hd : 0 ≤ ((matchSkills ps js).map (fun m => m.relevance_score)).sum
        / (max js.length 1 : ℚ) := div_nonneg hsum0 (by linarith)
    nlinarith
  · have hd : ((matchSkills ps js).map (fun m => m.relevance_score)).sum
        / (max js.length 1 : ℚ) ≤ 1 :=
      div_le_one_of_le₀ (le_trans hsumlen hjsmax) (by linarith)
    nlinarith

theorem mapO_mem {f : α → Option β} :
    ∀ {l : List α} {r : List β}, mapO f l = some r → ∀ y ∈ r, ∃ x ∈ l, f x = some y := by
  intro l
  induction l with
  | nil =>
    intro r h y hy
    simp only [mapO, Option.some.injEq] at h
    subst h
    cases hy
  | cons x xs ih =>
    intro r h y hy
    unfold mapO at h
    cases hfx : f x with
    | none => rw [hfx] at h; simp at h
    | some b =>
      rw [hfx] at h
      cases hmx : mapO f xs with
      | none => rw [hmx] at h; simp at h
      | some ys =>
        rw [hmx] at h
        simp only [Option.pure_def, Option.bind_eq_bind, Option.some_bind,
          Option.some.injEq] at h
        subst h
        rcases List.mem_cons.mp hy with hb | hys
        · exact ⟨x, List.mem_cons_self x xs, hb ▸ hfx⟩
        · rcases ih hmx y hys with ⟨x2, hx2, hfx2⟩
          exact ⟨x2, List.mem_cons_of_mem x hx2, hfx2⟩

theorem relevanceFactorExp_bounds (js : List JobSkill) (e : ProfileExperience)
    (hrel : ∀ j ∈ js, ∀ r, j.relevance = some r → 1 ≤ r ∧ r ≤ 10) :
    0 ≤ relevanceFactorExp js e ∧ relevanceFactorExp js e ≤ 1 := by
  unfold relevanceFactorExp
  by_cases hjs : js.isEmpty
  · rw [if_pos hjs]
    norm_num
  · rw [if_neg hjs]
    have hraw : 0 ≤ relevanceRaw js e := by
      apply List.sum_nonneg
      intro x hx
      rcases List.mem_map.mp hx with ⟨j, hj, rfl⟩
      split
      · obtain ⟨h1, _⟩ := relOf_bounds j (hrel j hj)
        have : (1:ℚ) ≤ (relOf j : ℚ) := by exact_mod_cast h1
        linarith
      · exact le_refl 0
    constructor
    · apply le_min
      · apply div_nonneg hraw
        positivity
      · norm_num
    · exact min_le_right _ _

/-- The experience score variable (lines 209-226) lies in `[0, 1]` when the
accumulated relevant years are nonnegative. -/
theorem expScoreIf_bounds (je : Option Int) (relevant : ℚ) (h : 0 ≤ relevant) :
    0 ≤ (if truthyInt je then
          (if (je.getD 0 : ℚ) ≤ relevant then (1:ℚ) else relevant / (je.getD 0 : ℚ))
        else expBuckets relevant)
    ∧ (if truthyInt je then
          (if (je.getD 0 : ℚ) ≤ relevant then (1:ℚ) else relevant / (je.getD 0 : ℚ))
        else expBuckets relevant) ≤ 1 := by
  split
  · split
    · norm_num
    · rename_i hnle
      have hlt : relevant < (je.getD 0 : ℚ) := lt_of_not_le hnle
      have hpos : (0:ℚ) < (je.getD 0 : ℚ) := lt_of_le_of_lt h hlt
      exact ⟨div_nonneg h (le_of_lt hpos), le_of_lt ((div_lt_one hpos).mpr hlt)⟩
  · unfold expBuckets
    split
    · norm_num
    · split
      · norm_num
      · split
        · norm_num
        · split <;> norm_num

theorem matchExperience_score_bounds (now : NowInfo) (exps : List ProfileExperience)
    (je : Option Int) (js : List JobSkill) (em : ExpMatch)
    (hrel : ∀ j ∈ js, ∀ r, j.relevance = some r → 1 ≤ r ∧ r ≤ 10)
    (hd : ∀ e ∈ exps, ∀ d, durationYears now e = some d → 0 ≤ d)
    (h : matchExperience now exps je js = some em) :
    0 ≤ em.score ∧ em.score ≤ 1 := by
  unfold matchExperience at h
  by_cases hne : exps.isEmpty
  · rw [if_pos hne] at h
    simp only [Option.some.injEq] at h
    subst h
    norm_num
  · rw [if_neg hne] at h
    cases hp : mapO (fun e =>
        (durationYears now e).map (fun d => (d, d * relevanceFactorExp js e))) exps with
    | none => rw [hp] at h; simp at h
    | some pairs =>
      rw [hp] at h
      simp only [Option.pure_def, Option.bind_eq_bind, Option.some_bind,
        Option.some.injEq] at h
      subst h
      have hrelv : 0 ≤ (pairs.map (fun q => q.2)).sum := by
        apply List.sum_nonneg
        intro x hx
        rcases List.mem_map.mp hx with ⟨q, hq, rfl⟩
        rcases mapO_mem hp q hq with ⟨e, he, hfe⟩
        rcases Option.map_eq_some'.mp hfe with ⟨d, hdur, hpair⟩
        have hd0 : 0 ≤ d := hd e he d hdur
        have hf := (relevanceFactorExp_bounds js e hrel).1
        rw [← hpair]
        exact mul_nonneg hd0 hf
      obtain ⟨hl, hu⟩ := expScoreIf_bounds je (pairs.map (fun q => q.2)).sum hrelv
      exact ⟨pyRound2_nonneg hl, pyRound2_le_one hu⟩

theorem matchEducation_score_cases (pe : List ProfileEducation) (je : List JobEdu)
    (ed : EduMatch) (h : matchEducation pe je = some ed) :
    ed.score = 4/5 ∨ ed.score = 0 := by
  unfold matchEducation at h
  split at h
  · simp only [Option.some.injEq] at h
    subst h
    left
    rfl
  · split at h
    · simp only [Option.some.injEq] at h
      subst h
      right
      rfl
    · cases h

def expNeg : ProfileExperience :=
  { company := "Gamma", title := "Planner", start_date := "2020-01",
    end_date := some "2010-01", description := none,
    achievements := [], skills_used := [] }

def pNeg : UserProfileR := ⟨[], [expNeg], []⟩

unseal Rat.mul Rat.inv Rat.add Rat.sub in
/-- C7 (refuting evaluation): an experience whose end date precedes its start
date (a representable, unvalidated input) gives duration −10 years and
relevant years −5; with `experience_years = 5` the experience score variable
is −100 on the 0-100 scale (`experience_match.score = −1`) and the overall
score is −14 — outside `[0, 100]` although the relevance precondition holds
vacuously (no required skills). -/
theorem C7_counterexample :
    (matchProfileToJob now0 pNeg [] (some 5) [] none).map
        (fun r => r.experience_match.score) = some (-1)
    ∧ (matchProfileToJob now0 pNeg [] (some 5) [] none).map
        (fun r => r.overall_match) = some (-14) := by decide

/-- C7 (amended): the four component scores of lines 53-58 (each on the 0-100
scale) and the reported rounded overall score lie in `[0, 100]`, provided
every required skill's relevance is in `[1, 10]`, no required skill's
`years_required` is negative, and every experience entry's parsed duration is
nonnegative (end not before start). -/
theorem C7_scores_in_range (now : NowInfo) (p : UserProfileR)
    (js : List JobSkill) (je : Option Int) (eduReqs : List JobEdu)
    (lvl : Option String) (r : MatchResultR)
    (hrel : ∀ j ∈ js, ∀ rv, j.relevance = some rv → 1 ≤ rv ∧ rv ≤ 10)
    (hy : ∀ j ∈ js, ∀ y, j.years_required = some y → 0 ≤ y)
    (hd : ∀ e ∈ p.experiences, ∀ d, durationYears now e = some d → 0 ≤ d)
    (h : matchProfileToJob now p js je eduReqs lvl = some r) :
    (0 ≤ skillScoreV p.skills js ∧ skillScoreV p.skills js ≤ 100)
    ∧ (0 ≤ experienceScoreV now p.experiences je js
        ∧ experienceScoreV now p.experiences je js ≤ 100)
    ∧ (0 ≤ educationScoreV p.education eduReqs
        ∧ educationScoreV p.education eduReqs ≤ 100)
    ∧ (0 ≤ r.overall_match ∧ r.overall_match ≤ 100) := by
  obtain ⟨hsk0, hsk1⟩ := skillScoreV_bounds p.skills js hrel hy
  unfold matchProfileToJob at h
  cases hem : matchExperience now p.experiences je js with
  | none => rw [hem] at h; simp at h
  | some em =>
    cases hed : matchEducation p.education eduReqs with
    | none => rw [hem, hed] at h; simp at h
    | some ed =>
      cases hre : rankExperiences now p.experiences js lvl with
      | none => rw [hem, hed, hre] at h; simp at h
      | some re =>
        rw [hem, hed, hre] at h
        simp only [Option.pure_def, Option.bind_eq_bind, Option.some_bind,
          Option.some.injEq] at h
        subst h
        obtain ⟨hex0, hex1⟩ :=
          matchExperience_score_bounds now p.experiences je js em hrel hd hem
        have hedc := matchEducation_score_cases p.education eduReqs ed hed
        have hexpV : experienceScoreV now p.experiences je js = em.score * 100 := by
          simp [experienceScoreV, hem]
        have heduV : educationScoreV p.education eduReqs = ed.score * 100 := by
          simp [educationScoreV, hed]
        have hed0 : 0 ≤ ed.score := by
          rcases hedc with h1 | h1 <;> norm_num [h1]
        have hed1 : ed.score ≤ 1 := by
          rcases hedc with h1 | h1 <;> norm_num [h1]
        refine ⟨⟨hsk0, hsk1⟩, ?_, ?_, ?_⟩
        · rw [hexpV]
          constructor <;> nlinarith
        · rw [heduV]
          constructor <;> nlinarith
        · have hskV : skillScoreV p.skills js
              = ((matchSkills p.skills js).map (fun m => m.relevance_score)).sum
                / (max js.length 1 : ℚ) * 100 := rfl
          constructor
          · apply pyRound2_nonneg
            rw [← hskV]
            nlinarith
          · apply pyRound2_le_hundred
            rw [← hskV]
            nlinarith

def pW : UserProfileR := ⟨[⟨"python", some 5⟩], [expGood], []⟩

/-- The match result for `pW` against the single `python` requirement with
three years required: skill 80, experience 0, education 80, overall 56. -/
def rW : MatchResultR :=
  { overall_match := 56, fit_category := "fair", skill_match_score := 80,
    matched_skills := [{ job_skill := "python", skill_name := "python",
                         category := "technical", match_score := 1,
                         years_experience := some 5, years_required := none,
                         relevance_score := 4/5 }],
    experience_match := { score := 0, total_years := 2, relevant_years := some 0,
                          required_years := some 3, has_sufficient := false },
    education_match := { score := 4/5, has_required := true, matched := [] },
    relevant_experiences := [{ title := "Engineer", company := "Acme",
                               duration := 2, relevance_score := 9/10,
                               matching_skills := [], is_current := false }],
    missing_skills := [] }

unseal Rat.mul Rat.inv Rat.add Rat.sub in
/-- Witness for C7 (amended) at a concrete input. -/
theorem C7_witness :
    (0 ≤ skillScoreV pW.skills [jsPy] ∧ skillScoreV pW.skills [jsPy] ≤ 100)
    ∧ (0 ≤ experienceScoreV now0 pW.experiences (some 3) [jsPy]
        ∧ experienceScoreV now0 pW.experiences (some 3) [jsPy] ≤ 100)
    ∧ (0 ≤ educationScoreV pW.education [] ∧ educationScoreV pW.education [] ≤ 100)
    ∧ (0 ≤ rW.overall_match ∧ rW.overall_match ≤ 100) :=
  C7_scores_in_range now0 pW [jsPy] (some 3) [] none rW
    (by
      intro j hj rv hrv
      simp only [List.mem_singleton] at hj
      subst hj
      simp only [jsPy, Option.some.injEq] at hrv
      omega)
    (by
      intro j hj y hyy
      simp only [List.mem_singleton] at hj
      subst hj
      simp [jsPy] at hyy)
    (by
      intro e he d hdur
      simp only [pW, List.mem_singleton] at he
      subst he
      have : durationYears now0 expGood = some 2 := by decide
      rw [this] at hdur
      injection hdur with h2
      rw [← h2]
      norm_num)
    (by decide)

/-! ## `JobAnalyzer` (analyzer.py): vocabulary pattern engine

The fallback extractors use `re.search` with `re.IGNORECASE` over fixed
vocabulary patterns.  Each vocabulary pattern is a sequence of literal
characters (after unescaping `\.` and `\+`), with `\s*` gaps in the
soft-skill patterns (`.` is replaced by `\s*` at the call site) and optional
`'?` / `\s+` pieces in the education patterns.  Whitespace atoms are matched
greedily, which is equivalent to the regex semantics here because in every
pattern the following atom is a non-whitespace literal. -/

inductive Atom where
  | lit (c : Char)
  | optLit (c : Char)
  | wsStar
  | wsPlus
deriving DecidableEq, Repr

/-- `\w` for the `\b` word-boundary test (ASCII texts). -/
def isWordO : Option Char → Bool
  | none => false
  | some c => c.isAlphanum || c == '_'

/-- Match a pattern at the head of `rest` (case-insensitive), threading the
previously consumed character for the trailing word-boundary test; returns
the last consumed character and the remainder. -/
def matchAtoms : List Atom → Option Char → List Char → Option (Option Char × List Char)
  | [], prev, rest => some (prev, rest)
  | .lit c :: as, _, d :: rest =>
    if d.toLower == c.toLower then matchAtoms as (some d) rest else none
  | .lit _ :: _, _, [] => none
  | .optLit c :: as, prev, d :: rest =>
    if d.toLower == c.toLower then matchAtoms as (some d) rest
    else matchAtoms as prev (d :: rest)
  | .optLit _ :: as, prev, [] => matchAtoms as prev []
  | .wsStar :: as, prev, rest =>
    let ws := rest.takeWhile (fun c => c.isWhitespace)
    matchAtoms as ((ws.getLast?).elim prev some) (rest.dropWhile (fun c => c.isWhitespace))
  | .wsPlus :: as, prev, rest =>
    let ws := rest.takeWhile (fun c => c.isWhitespace)
    if ws.isEmpty then none
    else matchAtoms as ((ws.getLast?).elim prev some) (rest.dropWhile (fun c => c.isWhitespace))

/-- Boundary-delimited match attempt at one position: a word boundary before
the match and one after it. -/
def bAt (atoms : List Atom) (prev : Option Char) (s : List Char) : Bool :=
  (isWordO prev != isWordO s.head?)
    && (match matchAtoms atoms prev s with
        | some (lastc, rem) => isWordO lastc != isWordO rem.head?
        | none => false)

/-- `re.search(r"\b" + pat + r"\b", s, re.IGNORECASE)` truthiness: some
position with a word boundary before the match and after it. -/
def searchB (atoms : List Atom) : Option Char → List Char → Bool
  | prev, [] => bAt atoms prev []
  | prev, c :: rest => bAt atoms prev (c :: rest) || searchB atoms (some c) rest

def searchPat (atoms : List Atom) (s : String) : Bool := searchB atoms none s.data

/-- `re.search` truthiness for patterns without `\b` anchors. -/
def searchNoB (atoms : List Atom) : List Char → Bool
  | [] => (matchAtoms atoms none []).isSome
  | c :: rest => (matchAtoms atoms none (c :: rest)).isSome || searchNoB atoms rest

def searchPlain (atoms : List Atom) (s : String) : Bool := searchNoB atoms s.data

/-- Unescape a raw vocabulary pattern (`\.` and `\+` denote literal chars; no
other regex metacharacters occur in these vocabularies). -/
def compileRaw : List Char → List Atom
  | [] => []
  | '\\' :: c :: rest => .lit c :: compileRaw rest
  | c :: rest => .lit c :: compileRaw rest

/-- Soft-skill patterns: at the call site every `.` is replaced by `\s*`. -/
def compileSoft (s : String) : List Atom :=
  s.data.map (fun c => if c == '.' then Atom.wsStar else Atom.lit c)

/-- Plain literal pattern (used for the `re.escape`d keyword terms and the
`\b`-wrapped field names). -/
def compileLit (s : String) : List Atom := s.data.map Atom.lit

def pmSkillsPatterns : List String :=
  ["Project Management", "Program Management", "Agile", "Scrum", "Kanban",
   "JIRA", "Confluence", "MS Project", "Gantt", "Stakeholder Management",
   "Risk Management", "Budget Management", "Resource Planning", "KPIs",
   "Metrics", "Reporting", "Dashboards", "PowerPoint", "Presentation",
   "Cross-functional", "Leadership", "Team Leadership"]

def supplyChainSkills : List String :=
  ["Supply Chain", "Logistics", "Inventory Management", "Procurement",
   "Vendor Management", "ERP", "SAP", "Warehouse Management",
   "Distribution", "Forecasting", "Demand Planning", "S&OP",
   "Lean", "Six Sigma", "Continuous Improvement", "Process Improvement",
   "KPIs", "Metrics", "Data Analysis", "Power BI", "Tableau"]

def techSkillsPatterns : List String :=
  ["Python", "Java", "JavaScript", "React", "Node\\.js", "SQL", "AWS",
   "Docker", "Kubernetes", "Git", "C\\+\\+", "C#", "Azure", "GCP",
   "HTML", "CSS", "TypeScript", "MongoDB", "PostgreSQL", "Jenkins",
   "CI/CD", "REST API", "GraphQL", "Machine Learning", "TensorFlow",
   "PyTorch", "Data Science", "Agile", "Scrum", "DevOps",
   "Python", "SQL", "Excel", "Power BI", "Tableau", "Data Analysis",
   "Microsoft Office", "SharePoint", "SAP", "Oracle", "Databases",
   "ERP Systems", "Reporting", "Analytics", "Visualization", "Dashboards"]

def softSkillsPatterns : List String :=
  ["teamwork", "communication", "leadership", "problem.solving",
   "critical.thinking", "collaboration", "adaptability", "time.management",
   "creativity", "attention.to.detail", "project.management",
   "Communication", "Leadership", "Teamwork", "Problem.Solving",
   "Critical.Thinking", "Collaboration", "Adaptability", "Time.Management",
   "Creativity", "Attention.to.Detail", "Presentation", "Negotiation",
   "Conflict.Resolution", "Decision.Making", "Strategic.Thinking"]

/-- `skill.replace(".", " ")`, the stored name of a soft-skill hit. -/
def replaceDots (s : String) : String :=
  ⟨s.data.map (fun c => if c == '.' then ' ' else c)⟩

def mkRuleSkill (cat : String) (rel : Int) (n : String) : JobSkill :=
  { name := n, category := some cat, relevance := some rel, years_required := none }

/-- The dict-based dedup of `_rule_based_skill_extraction` (lines 230-237):
keyed by lowercased name, keeping the first insertion position and replacing
the stored skill only on strictly greater relevance.  On this path the
`relevance` key is always present, so `relOf` reads the stored value. -/
def dedupStep (acc : List (String × JobSkill)) (sk : JobSkill) :
    List (String × JobSkill) :=
  match acc.find? (fun kv => kv.1 == lowerStr sk.name) with
  | none => acc ++ [(lowerStr sk.name, sk)]
  | some kv =>
    if relOf sk > relOf kv.2 then
      acc.map (fun kv2 => if kv2.1 == lowerStr sk.name then (kv2.1, sk) else kv2)
    else acc

def dedupSkills (l : List JobSkill) : List JobSkill :=
  (l.foldl dedupStep []).map (fun kv => kv.2)

/-- `_rule_based_skill_extraction` (analyzer.py lines 138-237). -/
def ruleBasedSkillExtraction (desc : String) : List JobSkill :=
  dedupSkills
    ((pmSkillsPatterns.filter (fun p => searchPat (compileRaw p.data) desc)).map
        (mkRuleSkill "domain" 8)
      ++ (supplyChainSkills.filter (fun p => searchPat (compileRaw p.data) desc)).map
        (mkRuleSkill "domain" 9)
      ++ (techSkillsPatterns.filter (fun p => searchPat (compileRaw p.data) desc)).map
        (mkRuleSkill "technical" 7)
      ++ (softSkillsPatterns.filter (fun p => searchPat (compileSoft p) desc)).map
        (fun p => mkRuleSkill "soft" 6 (replaceDots p)))

/-! ## `JobAnalyzer._extract_experience`: the years regexes

The four primary patterns and the last-resort patterns are hand-compiled
scanners.  `re.search` semantics: try a full (backtracking) match at each
position from the left; the implementations below enumerate the regexes'
alternation branches explicitly.  Greedy `\d+` / `\s*` munching is safe
because no following branch can consume a digit / whitespace character. -/

def dropWSC (l : List Char) : List Char := l.dropWhile (fun c => c.isWhitespace)

def hasWS (l : List Char) : Bool := !(l.takeWhile (fun c => c.isWhitespace)).isEmpty

/-- Case-insensitive literal token match, returning the remainder. -/
def litCI : List Char → List Char → Option (List Char)
  | [], rest => some rest
  | c :: cs, d :: rest => if d.toLower == c.toLower then litCI cs rest else none
  | _ :: _, [] => none

def spanDigits (l : List Char) : List Char × List Char :=
  (l.takeWhile Char.isDigit, l.dropWhile Char.isDigit)

def dropPlusOpt : List Char → List Char
  | '+' :: rest => rest
  | l => l

/-- `(?:experience|exp)` as a final piece. -/
def expWord (l : List Char) : Bool :=
  (litCI "experience".data l).isSome || (litCI "exp".data l).isSome

/-- `(?:\s*of\s*|\s+)(?:experience|exp)`. -/
def ofOrWsExp (l : List Char) : Bool :=
  (match litCI "of".data (dropWSC l) with
   | some r => expWord (dropWSC r)
   | none => false)
  || (hasWS l && expWord (dropWSC l))

/-- Pattern `(\d+)\+?\s*(?:years|yrs)(?:\s*of\s*|\s+)(?:experience|exp)`. -/
def p1At (l : List Char) : Option ℕ :=
  let (ds, r1) := spanDigits l
  if ds.isEmpty then none
  else
    let r2 := dropWSC (dropPlusOpt r1)
    match (litCI "years".data r2).orElse (fun _ => litCI "yrs".data r2) with
    | some r3 => if ofOrWsExp r3 then some (digitsToNat ds) else none
    | none => none

/-- `(\d+)\+?\s*(?:years|yrs)` as a final piece. -/
def numYears (l : List Char) : Option ℕ :=
  let (ds, r1) := spanDigits l
  if ds.isEmpty then none
  else
    let r2 := dropWSC (dropPlusOpt r1)
    if (litCI "years".data r2).isSome || (litCI "yrs".data r2).isSome then
      some (digitsToNat ds)
    else none

/-- `(?:\s*of\s*|\s+)(\d+)\+?\s*(?:years|yrs)`. -/
def p2Tail (l : List Char) : Option ℕ :=
  (match litCI "of".data (dropWSC l) with
   | some r => numYears (dropWSC r)
   | none => none).orElse
    (fun _ => if hasWS l then numYears (dropWSC l) else none)

/-- Pattern `(?:experience|exp)(?:\s*of\s*|\s+)(\d+)\+?\s*(?:years|yrs)`. -/
def p2At (l : List Char) : Option ℕ :=
  (match litCI "experience".data l with
   | some r => p2Tail r
   | none => none).orElse
    (fun _ =>
      match litCI "exp".data l with
      | some r => p2Tail r
      | none => none)

/-- Pattern `(\d+)\+?\s*(?:years|yrs)(?:\s*|\s+)(?:experience|exp)`
(the middle alternation is equivalent to `\s*`). -/
def p3At (l : List Char) : Option ℕ :=
  let (ds, r1) := spanDigits l
  if ds.isEmpty then none
  else
    let r2 := dropWSC (dropPlusOpt r1)
    match (litCI "years".data r2).orElse (fun _ => litCI "yrs".data r2) with
    | some r3 => if expWord (dropWSC r3) then some (digitsToNat ds) else none
    | none => none

/-- `(?:\s+)(?:of\s+)?(\d+)(?:\+)?\s*(?:years|yrs)` after `minimum`/`min`. -/
def p4Tail (l : List Char) : Option ℕ :=
  if hasWS l then
    let r := dropWSC l
    (match litCI "of".data r with
     | some r2 => if hasWS r2 then numYears (dropWSC r2) else none
     | none => none).orElse (fun _ => numYears r)
  else none

/-- Pattern `(?:minimum|min)(?:\s+)(?:of\s+)?(\d+)(?:\+)?\s*(?:years|yrs)`. -/
def p4At (l : List Char) : Option ℕ :=
  (match litCI "minimum".data l with
   | some r => p4Tail r
   | none => none).orElse
    (fun _ =>
      match litCI "min".data l with
      | some r => p4Tail r
      | none => none)

/-- Last-resort pattern `(\d+)\+?\s*years` / `(\d+)\+?\s*yrs`. -/
def pYearsAt (token : String) (l : List Char) : Option ℕ :=
  let (ds, r1) := spanDigits l
  if ds.isEmpty then none
  else
    let r2 := dropWSC (dropPlusOpt r1)
    if (litCI token.data r2).isSome then some (digitsToNat ds) else none

/-- Job-level fallback pattern `(\d+)\+?\s*years?` (the optional trailing `s`
has nothing after it, so matching `year` suffices). -/
def pYearOptS (l : List Char) : Option ℕ :=
  let (ds, r1) := spanDigits l
  if ds.isEmpty then none
  else
    let r2 := dropWSC (dropPlusOpt r1)
    if (litCI "year".data r2).isSome then some (digitsToNat ds) else none

/-- `re.search`: leftmost position at which the pattern matches. -/
def scanFor (f : List Char → Option ℕ) : List Char → Option ℕ
  | [] => f []
  | c :: rest => (f (c :: rest)).orElse (fun _ => scanFor f rest)

/-! ## `JobAnalyzer`: the extractors with their generative calls

The generative backend is a record of per-call-site responses: `none` means
the call raised (`GenerationError`, timeout, ...), `some v` the parsed value
the extractor reads out of the structured response.  For the job-level call
the present-with-`null` case is distinguished from the absent-key case,
because `result.get("level", "mid")` returns `None` for an explicit `null`
and `"mid"` for a missing key. -/

inductive LevelField where
  | absent
  | nullv
  | val (s : String)
deriving DecidableEq, Repr

structure Backend where
  skillsCall : Option (List JobSkill)
  yearsCall : Option (Option Int)
  eduCall : Option (List JobEdu)
  levelCall : Option LevelField
  keywordsCall : Option (List String)
  summaryCall : Option String

/-- `_extract_skills` (lines 70-136): generative result if non-empty,
otherwise (empty, missing, or exception) the rule-based fallback.  The
`title` argument only feeds the prompt and does not influence the result. -/
def extractSkills (call : Option (List JobSkill)) (desc : String) : List JobSkill :=
  match call with
  | some (s :: rest) => s :: rest
  | some [] => ruleBasedSkillExtraction desc
  | none => ruleBasedSkillExtraction desc

/-- `_extract_experience` (lines 239-298): regex patterns first, then the
generative call (whose `years` value — possibly `null` — is returned as-is),
then the simplified last-resort patterns. -/
def extractExperience (desc : String) (yearsCall : Option (Option Int)) : Option Int :=
  match (scanFor p1At desc.data).orElse (fun _ => scanFor p2At desc.data)
      |>.orElse (fun _ => scanFor p3At desc.data)
      |>.orElse (fun _ => scanFor p4At desc.data) with
  | some n => some (n : Int)
  | none =>
    match yearsCall with
    | some v => v
    | none =>
      match scanFor (pYearsAt "years") desc.data with
      | some n => some (n : Int)
      | none => (scanFor (pYearsAt "yrs") desc.data).map (fun n => (n : Int))

/-- One education fallback pattern: its alternation branches, the stored
degree level, and the `is_common` flag. -/
structure EdPat where
  pats : List (List Atom)
  level : String
  common : Bool

/-- `"{stem}'?s\s+degree"`. -/
def mkDegPat (stem : String) : List Atom :=
  stem.data.map Atom.lit ++ [Atom.optLit (Char.ofNat 39), Atom.lit 's', Atom.wsPlus]
    ++ "degree".data.map Atom.lit

def edPatterns : List EdPat :=
  [ ⟨[mkDegPat "bachelor"], "Bachelor\x27s", true⟩,
    ⟨[mkDegPat "master"], "Master\x27s", false⟩,
    ⟨[compileLit "phd", compileLit "doctorate"], "Ph.D.", false⟩,
    ⟨[mkDegPat "associate"], "Associate\x27s", false⟩,
    ⟨["high".data.map Atom.lit ++ [Atom.wsPlus] ++ "school".data.map Atom.lit,
      ], "High School", false⟩ ]

def eduFields : List String :=
  ["business", "engineering", "computer science", "supply chain",
   "logistics", "operations", "management"]

/-- Python `str.title()` for the letters-and-spaces field names. -/
def pyTitle (s : String) : String :=
  ⟨(s.data.foldl
      (fun (acc : List Char × Bool) c =>
        (acc.1 ++ [if c.isAlpha then (if acc.2 then c.toLower else c.toUpper) else c],
         c.isAlpha))
      ([], false)).1⟩

/-- The per-hit field lookup of lines 371-376. -/
def fieldFor (desc : String) : String :=
  match eduFields.find? (fun f => searchPat (compileLit f) desc) with
  | some f => pyTitle f
  | none => "General"

/-- `required|must\s+have` truthiness. -/
def reqFlag (desc : String) : Bool :=
  searchPlain (compileLit "required") desc
    || searchPlain ("must".data.map Atom.lit ++ [Atom.wsPlus] ++ "have".data.map Atom.lit) desc

/-- `_extract_education` (lines 300-389): generative result, else the
keyword fallback. -/
def extractEducation (desc : String) (eduCall : Option (List JobEdu)) : List JobEdu :=
  match eduCall with
  | some l => l
  | none =>
    (edPatterns.filter (fun t => t.pats.any (fun p => searchPlain p desc))).map
      (fun t => { level := t.level, field := fieldFor desc,
                  required := t.common || reqFlag desc })

/-- `_extract_job_level` (lines 391-470): title keywords, then the
generative classification (an explicit `null` level passes through as
`None`), then the years-bucket fallback, default `mid`. -/
def extractJobLevel (title desc : String) (lvlCall : Option LevelField) : Option String :=
  if ["senior", "sr.", "sr ", "lead"].any (fun w => pyIn w (lowerStr title)) then
    some "senior"
  else if ["principal", "staff", "architect"].any (fun w => pyIn w (lowerStr title)) then
    some "principal"
  else if ["director", "head", "vp", "chief"].any (fun w => pyIn w (lowerStr title)) then
    some "executive"
  else if ["junior", "jr.", "jr ", "associate", "entry"].any
      (fun w => pyIn w (lowerStr title)) then
    some "entry"
  else
    match lvlCall with
    | some .absent => some "mid"
    | some .nullv => none
    | some (.val s) => some s
    | none =>
      match scanFor pYearOptS desc.data with
      | some n =>
        some (if n ≤ 2 then "entry" else if n ≤ 5 then "mid"
              else if n ≤ 8 then "senior" else "principal")
      | none => some "mid"

def importantTerms : List String :=
  ["Project Management", "Program Management", "Supply Chain",
   "Leadership", "Cross-functional", "Strategic", "KPIs", "Metrics",
   "Budget", "Cost Reduction", "Efficiency", "Optimization",
   "Process Improvement", "Lean", "Six Sigma", "Agile", "Scrum",
   "SAP", "ERP", "PowerPoint", "Excel", "Power BI", "Tableau",
   "Communication", "Stakeholder Management", "Risk Management"]

/-- `_extract_keywords` (lines 472-527): generative result, else the fixed
important-terms scan capped at 15 (`re.escape` makes each term literal). -/
def extractKeywords (desc : String) (kwCall : Option (List String)) : List String :=
  match kwCall with
  | some l => l
  | none => (importantTerms.filter (fun t => searchPat (compileLit t) desc)).take 15

/-- The parts of a `JobPost` the analyzer reads (location feeds only the
prompt). -/
structure JobInfo where
  title : String
  company_name : String
  description : Option String
deriving DecidableEq, Repr

/-- The fallback template of `_get_analysis_summary` (lines 573-584),
with the title and company interpolated. -/
def summaryFallback (title company : String) : String :=
  "\n            This " ++ title ++ " position at " ++ company
    ++ " appears to be focused on program management \n"
    ++ "            within a supply chain context. The role requires project management experience \n"
    ++ "            and skills in cross-functional team leadership. \n"
    ++ "            \n"
    ++ "            Key requirements include experience in program/project management, \n"
    ++ "            strong communication skills, and analytical capabilities. The position \n"
    ++ "            seems to be at a senior level, likely requiring 5+ years of relevant experience.\n"
    ++ "            \n"
    ++ "            The job involves managing end-to-end programs, developing KPIs, \n"
    ++ "            monitoring performance, and driving continuous improvement initiatives.\n"
    ++ "            "

def getAnalysisSummary (job : JobInfo) (sumCall : Option String) : String :=
  match sumCall with
  | some s => s
  | none => summaryFallback job.title job.company_name

/-- The dict returned by `analyze_job`; `analyzed_at = none` models the
absent key on the empty-description early return. -/
structure JobAnalysis where
  skills : List JobSkill
  experience_years : Option Int
  education : List JobEdu
  job_level : Option String
  keywords : List String
  analysis_summary : String
  analyzed_at : Option Int
deriving DecidableEq, Repr

def pyFalsyStr : Option String → Bool
  | none => true
  | some s => s.isEmpty

/-- The fixed analysis of the empty-description early return
(lines 39-48). -/
def emptyAnalysis : JobAnalysis :=
  { skills := [], experience_years := none, education := [],
    job_level := none, keywords := [],
    analysis_summary := "No description available for analysis",
    analyzed_at := none }

/-- `analyze_job` (lines 30-68); `t` is the `datetime.utcnow()` reading used
for `analyzed_at`. -/
def analyzeJob (t : Int) (b : Backend) (job : JobInfo) : JobAnalysis :=
  if pyFalsyStr job.description then emptyAnalysis
  else
    { skills := extractSkills b.skillsCall (job.description.getD "")
      experience_years := extractExperience (job.description.getD "") b.yearsCall
      education := extractEducation (job.description.getD "") b.eduCall
      job_level := extractJobLevel job.title (job.description.getD "") b.levelCall
      keywords := extractKeywords (job.description.getD "") b.keywordsCall
      analysis_summary := getAnalysisSummary job b.summaryCall
      analyzed_at := some t }

/-- A backend on which every generative call raises (`GenerationError`):
the "deterministic non-generative backend" of the testable properties. -/
def failBackend : Backend := ⟨none, none, none, none, none, none⟩

def jobC6 : JobInfo :=
  ⟨"Engineer", "Acme", some "Requires 5 years of experience with Python."⟩

/-! ## Claim C6 -/

/-- C6 (amended): re-running `analyze_job` on identical input with the same
(deterministic) backend yields equal values on every field of the analysis
*except* `analyzed_at` — the `datetime.utcnow()` write timestamp (line 67) is
the only part of the result that depends on anything but the inputs. -/
theorem C6_deterministic_up_to_timestamp (t1 t2 : Int) (b : Backend) (j : JobInfo) :
    (analyzeJob t1 b j).skills = (analyzeJob t2 b j).skills
    ∧ (analyzeJob t1 b j).experience_years = (analyzeJob t2 b j).experience_years
    ∧ (analyzeJob t1 b j).education = (analyzeJob t2 b j).education
    ∧ (analyzeJob t1 b j).job_level = (analyzeJob t2 b j).job_level
    ∧ (analyzeJob t1 b j).keywords = (analyzeJob t2 b j).keywords
    ∧ (analyzeJob t1 b j).analysis_summary = (analyzeJob t2 b j).analysis_summary := by
  unfold analyzeJob
  split <;> exact ⟨rfl, rfl, rfl, rfl, rfl, rfl⟩

/-- C6 (refuting evaluation): two runs of `analyze_job` at different clock
readings on the same non-empty job with the all-failing backend produce
analyses differing in `analyzed_at`, so the results are not byte-identical
in *every* field. -/
theorem C6_counterexample :
    (analyzeJob 0 failBackend jobC6).analyzed_at = some 0
    ∧ (analyzeJob 1 failBackend jobC6).analyzed_at = some 1
    ∧ analyzeJob 0 failBackend jobC6 ≠ analyzeJob 1 failBackend jobC6 := by
  refine ⟨rfl, rfl, fun h => ?_⟩
  have h2 := congrArg JobAnalysis.analyzed_at h
  have e0 : (analyzeJob 0 failBackend jobC6).analyzed_at = some 0 := rfl
  have e1 : (analyzeJob 1 failBackend jobC6).analyzed_at = some 1 := rfl
  rw [e0, e1] at h2
  exact absurd (Option.some_injective _ h2) (by norm_num)

/-! ## Claim C10 -/

def bNullLevel : Backend := ⟨none, none, none, some .nullv, none, none⟩

def jobC10 : JobInfo := ⟨"Software Engineer", "Acme", some "Great role."⟩

/-- C10 (refuting evaluation): with a non-empty description and a structured
job-level response carrying an explicit `null` level, `analyze_job` stores
`job_level = None` on a *non*-empty-description path —
`result.get("level", "mid")` returns `None` for a present-but-null key — so
the empty-description path is not the only one yielding a null job level. -/
theorem C10_counterexample :
    pyFalsyStr jobC10.description = false
    ∧ (analyzeJob 0 bNullLevel jobC10).job_level = none := ⟨rfl, rfl⟩

/-- C10 (amended): a job with a falsy (empty or missing) description gets the
fixed analysis — empty skills/education/keywords, null experience years and
job level, the fixed summary, no timestamp — for *every* backend, i.e.
without consulting the backend; and every other path of job-level extraction
returns a non-null level *unless* the structured generation succeeds with an
explicit `null` in its `level` field, which passes through as null. -/
theorem C10_empty_description_fixed (t : Int) (b : Backend) (j : JobInfo)
    (title desc : String) (lv : Option LevelField)
    (hj : pyFalsyStr j.description = true)
    (hlv : lv ≠ some LevelField.nullv) :
    analyzeJob t b j = emptyAnalysis
    ∧ (extractJobLevel title desc lv).isSome = true := by
  constructor
  · unfold analyzeJob
    rw [if_pos hj]
  · unfold extractJobLevel
    cases lv with
    | none =>
      repeat' split
      all_goals first
        | rfl
        | simp_all
    | some lf =>
      cases lf with
      | absent =>
        repeat' split
        all_goals first
          | rfl
          | simp_all
      | nullv => exact absurd rfl hlv
      | val s =>
        repeat' split
        all_goals first
          | rfl
          | simp_all

/-- Witness for C10 (amended) at concrete inputs. -/
theorem C10_witness :
    analyzeJob 7 failBackend ⟨"X", "Y", none⟩ = emptyAnalysis
    ∧ (extractJobLevel "Engineer" "some text" none).isSome = true :=
  C10_empty_description_fixed 7 failBackend ⟨"X", "Y", none⟩ "Engineer" "some text"
    none rfl (fun h => Option.noConfusion h)

/-! ## `OllamaProvider.generate_structured` (ollama.py lines 78-150)

The backend is a function from the attempt number to that attempt's outcome
(`genFail` = the `generate` call raised, `text` = the raw response).  JSON
parsing of the extracted region is the standard-library `json.loads`,
abstracted as a `parse` parameter.  `.error ()` models the exception
re-raised out of the function; `.ok` models a normal return — including the
error dicts of lines 139 and 143. -/

inductive GenResp where
  | genFail
  | text (s : String)

inductive StructResult (α : Type) where
  | parsed (v : α)
  | errDict (msg raw : String)
deriving DecidableEq, Repr

def findIdxChar (c : Char) (l : List Char) : Option ℕ := l.findIdx? (· == c)

def rfindIdxChar (c : Char) (l : List Char) : Option ℕ :=
  (findIdxChar c l.reverse).map (fun i => l.length - 1 - i)

/-- Lines 129-134: `json_start = find("{")`, `json_end = rfind("}") + 1`,
keep the slice when `json_start >= 0 and json_end > json_start` (this is a
first-to-last-brace slice, not a balanced-region scan). -/
def extractRegion (s : String) : Option String :=
  match findIdxChar (Char.ofNat 123) s.data, rfindIdxChar (Char.ofNat 125) s.data with
  | some i, some j => if i < j + 1 then some ⟨(s.data.drop i).take (j + 1 - i)⟩ else none
  | some _, none => none
  | none, _ => none

/-- The attempt loop (lines 118-147), iterating over the remaining attempt
numbers; `rest.isEmpty` is `attempt == max_attempts - 1`.  The final return
of line 150 is unreachable for a non-empty attempt list. -/
def genStructOver (parse : String → Option α) (resp : ℕ → GenResp) :
    List ℕ → Except Unit (StructResult α)
  | [] => .ok (.errDict "Failed to generate structured response after multiple attempts" "")
  | a :: rest =>
    match resp a with
    | .genFail => if rest.isEmpty then .error () else genStructOver parse resp rest
    | .text t =>
      match extractRegion t with
      | none =>
        if rest.isEmpty then
          .ok (.errDict "No JSON object found in response after multiple attempts" t)
        else genStructOver parse resp rest
      | some r =>
        match parse r with
        | some v => .ok (.parsed v)
        | none =>
          if rest.isEmpty then
            .ok (.errDict "Failed to parse JSON from LLM response" t)
          else genStructOver parse resp rest

/-- `generate_structured` with `max_attempts = 3`. -/
def generateStructured (parse : String → Option α) (resp : ℕ → GenResp) :
    Except Unit (StructResult α) :=
  genStructOver parse resp [0, 1, 2]

/-! ## Claim C4 -/

/-- C4 (refuting evaluation): when no brace region exists in any of the three
responses, and likewise when the extracted region fails to parse on every
attempt, `generate_structured` *returns normally* with an
`{"error": ..., "raw_response": ...}` dict (lines 139/143) instead of
raising — contradicting its own docstring ("Raises: ... If API call fails or
JSON parsing fails") and the claim that it fails with a `SchemaParseError`
and never returns failure data as a successful result. -/
theorem C4_parse_failure_returns_ok :
    generateStructured (fun (_ : String) => (none : Option Unit))
        (fun _ => .text "no json here")
      = .ok (.errDict "No JSON object found in response after multiple attempts"
          "no json here")
    ∧ generateStructured (fun (_ : String) => (none : Option Unit))
        (fun _ => .text "\x7bbad json\x7d")
      = .ok (.errDict "Failed to parse JSON from LLM response" "\x7bbad json\x7d") :=
  ⟨rfl, rfl⟩

/-! ## `ResumeGenerator._generate_experience_section` (generator.py 318-362) -/

inductive PyExc where
  | attributeError
  | typeError
deriving DecidableEq, Repr

/-- `_tailor_achievements` (lines 364-432) as invoked from line 347: it is
passed `exp`, a pydantic `ProfileExperience` object, and its first statement
evaluates `experience.get("achievements", [])` (line 378).  Pydantic models
have no `get` method, so an `AttributeError` is raised before the `try` that
guards the LLM call (line 410); the `except` at line 429 therefore never
catches it and the exception escapes. -/
def tailorAchievements (_e : ProfileExperience) : Except PyExc (List String) :=
  .error .attributeError

/-- One tailored experience entry of lines 349-359 (`location` omitted along
with the profile model's). -/
structure ExpEntry where
  company : String
  title : String
  start_date : String
  end_date : Option String
  description : Option String
  achievements : List String
  skills_used : List String
  relevance_order : ℕ
deriving DecidableEq, Repr

def mkEntry (e : ProfileExperience) (ach : List String) (order : ℕ) : ExpEntry :=
  { company := e.company, title := e.title, start_date := e.start_date,
    end_date := e.end_date, description := e.description, achievements := ach,
    skills_used := e.skills_used, relevance_order := order }

/-- Sequential fallible map (a Python loop whose body may raise). -/
def mapE (f : α → Except ε β) : List α → Except ε (List β)
  | [] => .ok []
  | x :: xs => do
    let y ← f x
    let ys ← mapE f xs
    pure (y :: ys)

/-- Python string `<`: lexicographic by code point. -/
def charListLt : List Char → List Char → Bool
  | [], [] => false
  | [], _ :: _ => true
  | _ :: _, [] => false
  | a :: as, b :: bs => if a < b then true else if b < a then false else charListLt as bs

/-- The sort key of line 362:
`(x["relevance_order"], x.get("end_date", "9999-99") + x["start_date"])`.
The `.get` default is dead code — the key is always present — and a `None`
value raises `TypeError` before any comparison (handled by the caller
below). -/
def entryKey2 (x : ExpEntry) : String := (x.end_date.getD "9999-99") ++ x.start_date

/-- Python tuple `>=` on the key, for the stable `reverse=True` sort. -/
def entryKeyGE (a b : ExpEntry) : Bool :=
  (b.relevance_order < a.relevance_order)
    || (a.relevance_order == b.relevance_order
        && !(charListLt (entryKey2 a).data (entryKey2 b).data))

def bInsertDesc (ge : α → α → Bool) (x : α) : List α → List α
  | [] => [x]
  | y :: ys => if ge x y then x :: y :: ys else y :: bInsertDesc ge x ys

def bSortDesc (ge : α → α → Bool) : List α → List α
  | [] => []
  | x :: xs => bInsertDesc ge x (bSortDesc ge xs)

/-- `_generate_experience_section`: per experience, `relevance_order` is its
index in the ranked-id list (999 if absent); the top-3 entries' achievements
are rewritten via `_tailor_achievements` (which raises, see above); finally
the list is sorted by `(relevance_order, date-key)` with `reverse=True`
(most recent date first — but also *largest* rank index first).  `sorted`
evaluates the key for every element up front, so any `None` end date raises
`TypeError`. -/
def generateExperienceSection (exps : List ProfileExperience)
    (ranked : List RankedExp) : Except PyExc (List ExpEntry) := do
  let ids := ranked.map (fun r => r.company ++ r.title)
  let entries ← mapE
    (fun e =>
      let order := (ids.findIdx? (fun x => x == e.company ++ e.title)).getD 999
      if order < 3 then (tailorAchievements e).map (fun ach => mkEntry e ach order)
      else .ok (mkEntry e e.achievements order))
    exps
  if entries.any (fun x => x.end_date == none) then .error .typeError
  else .ok (bSortDesc entryKeyGE entries)

/-! ## Claim C5 -/

unseal Rat.mul Rat.inv Rat.add Rat.sub in
/-- C5 (refuting evaluation): for a profile with one experience, the ranker
ranks it first (index 0 < 3), so `_generate_experience_section` calls
`_tailor_achievements` on the pydantic object and raises `AttributeError` —
no ordered experience section is ever produced for a non-empty profile
(every non-empty ranked list puts some experience in the top 3).  Separately,
even if the loop completed, the final sort uses `reverse=True` over the
ascending rank index, which would place the *least* relevant entries first. -/
theorem C5_experience_section_raises :
    rankExperiences now0 [expGood] [] none
      = some [{ title := "Engineer", company := "Acme", duration := 2,
                relevance_score := 9/10, matching_skills := [], is_current := false }]
    ∧ generateExperienceSection [expGood]
        [{ title := "Engineer", company := "Acme", duration := 2,
           relevance_score := 9/10, matching_skills := [], is_current := false }]
      = .error .attributeError := by
  constructor
  · decide
  · rfl

end JobAuto
